import Mathlib

/-!
Verification of the core logic of the `llm-driverjs-browser-extension`
repository: the Model Gateway (`src/ai-providers/gemini.js` and its other
revision in `src/unnamed/part_005`), the JSON helper `parseJson`
(`src/popup.js`, lines 289-313, from `utils.mjs`), the Coordinator's
injection-retry send (`src/unnamed/part_002`), and the Renderer's snapshot
and step-normalization logic (`src/unnamed/part_000`).

JavaScript data is modelled by the inductive type `JVal` (JSON-like values;
JavaScript `null` and JSON `null` are the same value, as in the engine).
The platform built-ins `JSON.parse` and `JSON.stringify` are modelled by an
executable recursive-descent parser and printer over `List Char`, covering
the fragment exercised by the repository: integer numbers, strings with the
common escapes (no `\u` escapes), arrays and objects, and no whitespace
between tokens.  Machine strings are `List Char` in the JSON development and
`String` at the prompt-construction layer.
-/

/-- Model of a JSON/JavaScript value as produced by `JSON.parse`. -/
inductive JVal : Type where
  | null : JVal
  | bool : Bool → JVal
  | num : Int → JVal
  | str : List Char → JVal
  | arr : List JVal → JVal
  | obj : List (List Char × JVal) → JVal

mutual

/-- Structural equality test for `JVal` (nested lists need a mutual recursion). -/
def JVal.beq : JVal → JVal → Bool
  | .null, .null => true
  | .bool a, .bool b => a == b
  | .num a, .num b => a == b
  | .str a, .str b => a == b
  | .arr a, .arr b => JVal.beqList a b
  | .obj a, .obj b => JVal.beqFields a b
  | _, _ => false

def JVal.beqList : List JVal → List JVal → Bool
  | [], [] => true
  | x :: xs, y :: ys => JVal.beq x y && JVal.beqList xs ys
  | _, _ => false

def JVal.beqFields : List (List Char × JVal) → List (List Char × JVal) → Bool
  | [], [] => true
  | (k₁, v₁) :: xs, (k₂, v₂) :: ys => k₁ == k₂ && JVal.beq v₁ v₂ && JVal.beqFields xs ys
  | _, _ => false

end

mutual

theorem JVal.beq_iff_eq : ∀ a b : JVal, JVal.beq a b = true ↔ a = b
  | .null, .null => by simp [JVal.beq]
  | .bool _, .bool _ => by simp [JVal.beq]
  | .num _, .num _ => by simp [JVal.beq]
  | .str _, .str _ => by simp [JVal.beq]
  | .arr x, .arr y => by simp [JVal.beq, JVal.beqList_iff_eq x y]
  | .obj x, .obj y => by simp [JVal.beq, JVal.beqFields_iff_eq x y]
  | .null, .bool _ | .null, .num _ | .null, .str _ | .null, .arr _ | .null, .obj _
  | .bool _, .null | .bool _, .num _ | .bool _, .str _ | .bool _, .arr _ | .bool _, .obj _
  | .num _, .null | .num _, .bool _ | .num _, .str _ | .num _, .arr _ | .num _, .obj _
  | .str _, .null | .str _, .bool _ | .str _, .num _ | .str _, .arr _ | .str _, .obj _
  | .arr _, .null | .arr _, .bool _ | .arr _, .num _ | .arr _, .str _ | .arr _, .obj _
  | .obj _, .null | .obj _, .bool _ | .obj _, .num _ | .obj _, .str _ | .obj _, .arr _ => by
    simp [JVal.beq]

theorem JVal.beqList_iff_eq : ∀ xs ys : List JVal, JVal.beqList xs ys = true ↔ xs = ys
  | [], [] => by simp [JVal.beqList]
  | x :: xs, y :: ys => by simp [JVal.beqList, JVal.beq_iff_eq x y, JVal.beqList_iff_eq xs ys]
  | [], _ :: _ => by simp [JVal.beqList]
  | _ :: _, [] => by simp [JVal.beqList]

theorem JVal.beqFields_iff_eq :
    ∀ xs ys : List (List Char × JVal), JVal.beqFields xs ys = true ↔ xs = ys
  | [], [] => by simp [JVal.beqFields]
  | (k₁, v₁) :: xs, (k₂, v₂) :: ys => by
    simp [JVal.beqFields, JVal.beq_iff_eq v₁ v₂, JVal.beqFields_iff_eq xs ys, and_assoc]
  | [], _ :: _ => by simp [JVal.beqFields]
  | _ :: _, [] => by simp [JVal.beqFields]

end

instance : DecidableEq JVal := fun a b =>
  decidable_of_iff (JVal.beq a b = true) (JVal.beq_iff_eq a b)

/-- JavaScript truthiness of a `JVal`: `null`, `false`, `0` and `""` are falsy;
arrays and objects (even empty ones) are truthy. -/
def jsTruthy : JVal → Bool
  | .null => false
  | .bool b => b
  | .num n => n != 0
  | .str s => s != []
  | .arr _ => true
  | .obj _ => true

/-- Last-binding object lookup, as `JSON.parse` keeps the last of a repeated key. -/
def lookupLastField (kvs : List (List Char × JVal)) (k : List Char) : Option JVal :=
  match kvs with
  | [] => none
  | (k', v) :: rest =>
    match lookupLastField rest k with
    | some w => some w
    | none => if k' = k then some v else none



/-- Decimal digit test on characters. -/
def isDigitCh (c : Char) : Bool := 48 ≤ c.toNat && c.toNat ≤ 57

/-- Numeric value of a decimal digit character. -/
def digitVal (c : Char) : Nat := c.toNat - 48

/-- The decimal digit character for `d < 10`. -/
def digitCh : Nat → Char
  | 0 => '0' | 1 => '1' | 2 => '2' | 3 => '3' | 4 => '4'
  | 5 => '5' | 6 => '6' | 7 => '7' | 8 => '8' | _ => '9'

/-- Decimal digits of a natural number, most significant first, no leading zeros. -/
def natToDigits (n : Nat) : List Char :=
  if _h : n < 10 then [digitCh n]
  else natToDigits (n / 10) ++ [digitCh (n % 10)]
termination_by n
decreasing_by exact Nat.div_lt_self (by omega) (by omega)

/-- Decimal digits of a `Nat`, used to model numeric indexing of arrays
(`v[k]` with a decimal index string). -/
def natKey (n : Nat) : List Char := natToDigits n

/-- Property access `v[k]`, modelling the fragment the source exercises:
named fields of objects and decimal indices of arrays.  `none` is JavaScript
`undefined` (property absent). -/
def jsGetProp : JVal → List Char → Option JVal
  | .obj kvs, k => lookupLastField kvs k
  | .arr xs, k =>
    (List.range xs.length).findSome? (fun i => if natKey i = k then xs.get? i else none)
  | _, _ => none

/-- Truthiness of a property, modelling patterns like `result.type`. -/
def jsTruthyProp (v : JVal) (k : List Char) : Bool :=
  match jsGetProp v k with
  | some x => jsTruthy x
  | none => false

/-- `Object.keys` on the fragment the source exercises: objects give their
field names (each once, as a JavaScript object holds a key once). -/
def jsKeys : JVal → List (List Char)
  | .obj kvs => (kvs.map Prod.fst).dedup
  | _ => []

/-- Decimal notation of an integer, as `JSON.stringify` prints an integral number. -/
def intToChars : Int → List Char
  | .ofNat n => natToDigits n
  | .negSucc m => '-' :: natToDigits (m + 1)

/-- String-escape of one character, as `JSON.stringify` escapes it. -/
def escChar (c : Char) : List Char :=
  if c = '"' then ['\\', '"']
  else if c = '\\' then ['\\', '\\']
  else if c = '\n' then ['\\', 'n']
  else if c = '\t' then ['\\', 't']
  else if c = '\r' then ['\\', 'r']
  else [c]

/-- String-escape of a character sequence. -/
def escString : List Char → List Char
  | [] => []
  | c :: cs => escChar c ++ escString cs

mutual

/-- Model of the platform built-in `JSON.stringify` on the modelled fragment:
no added whitespace, object fields in order. -/
def stringify : JVal → List Char
  | .null => "null".data
  | .bool true => "true".data
  | .bool false => "false".data
  | .num n => intToChars n
  | .str s => '"' :: (escString s ++ ['"'])
  | .arr xs => '[' :: (stringifyItems xs ++ [']'])
  | .obj kvs => '\x7b' :: (stringifyFields kvs ++ ['\x7d'])

/-- The comma-separated element list of a stringified array. -/
def stringifyItems : List JVal → List Char
  | [] => []
  | [x] => stringify x
  | x :: y :: ys => stringify x ++ ',' :: stringifyItems (y :: ys)

/-- The comma-separated field list of a stringified object. -/
def stringifyFields : List (List Char × JVal) → List Char
  | [] => []
  | [(k, v)] => ('"' :: (escString k ++ ['"', ':'])) ++ stringify v
  | (k, v) :: kv :: kvs =>
    ('"' :: (escString k ++ ['"', ':'])) ++ stringify v ++ ',' :: stringifyFields (kv :: kvs)

end

/-- Un-escape of one escape character in a JSON string (`\u` escapes are outside
the modelled fragment). -/
def unescCh (e : Char) : Option Char :=
  if e = '"' then some '"'
  else if e = '\\' then some '\\'
  else if e = '/' then some '/'
  else if e = 'n' then some '\n'
  else if e = 't' then some '\t'
  else if e = 'r' then some '\r'
  else if e = 'b' then some (Char.ofNat 8)
  else if e = 'f' then some (Char.ofNat 12)
  else none

/-- Parse the body of a JSON string after the opening quote; returns the decoded
characters and the input after the closing quote.  Raw control characters are
rejected, as in the JSON grammar. -/
def parseStrBody : List Char → Option (List Char × List Char)
  | [] => none
  | c :: r =>
    if c = '"' then some ([], r)
    else if c = '\\' then
      match r with
      | [] => none
      | e :: r' =>
        match unescCh e with
        | some u => (parseStrBody r').map (fun p => (u :: p.1, p.2))
        | none => none
    else if 32 ≤ c.toNat then (parseStrBody r).map (fun p => (c :: p.1, p.2))
    else none

/-- Consume a maximal run of decimal digits, folding them onto an accumulator. -/
def takeDigits : List Char → Nat → Nat × List Char
  | [], acc => (acc, [])
  | c :: cs, acc => if isDigitCh c then takeDigits cs (acc * 10 + digitVal c) else (acc, c :: cs)

/-- Parse an (optionally negative) decimal integer. -/
def parseNum : List Char → Option (Int × List Char)
  | [] => none
  | c :: cs =>
    if c = '-' then
      match cs with
      | [] => none
      | d :: ds =>
        if isDigitCh d then
          some (-((takeDigits ds (digitVal d)).1 : Int), (takeDigits ds (digitVal d)).2)
        else none
    else if isDigitCh c then
      some (((takeDigits cs (digitVal c)).1 : Int), (takeDigits cs (digitVal c)).2)
    else none

/-- Drop an expected literal character sequence from the front of the input. -/
def dropSeq : List Char → List Char → Option (List Char)
  | [], s => some s
  | _ :: _, [] => none
  | p :: ps, c :: cs => if c = p then dropSeq ps cs else none

mutual

/-- Fuel-indexed recursive-descent parser for one JSON value. -/
def parseVal : Nat → List Char → Option (JVal × List Char)
  | 0, _ => none
  | _ + 1, [] => none
  | f + 1, c :: r =>
    if c = 'n' then (dropSeq ['u', 'l', 'l'] r).map (fun r' => (JVal.null, r'))
    else if c = 't' then (dropSeq ['r', 'u', 'e'] r).map (fun r' => (JVal.bool true, r'))
    else if c = 'f' then (dropSeq ['a', 'l', 's', 'e'] r).map (fun r' => (JVal.bool false, r'))
    else if c = '"' then (parseStrBody r).map (fun p => (JVal.str p.1, p.2))
    else if c = '[' then
      match r with
      | [] => none
      | d :: r' =>
        if d = ']' then some (JVal.arr [], r')
        else (parseItems f (d :: r')).map (fun p => (JVal.arr p.1, p.2))
    else if c = '\x7b' then
      match r with
      | [] => none
      | d :: r' =>
        if d = '\x7d' then some (JVal.obj [], r')
        else (parseFields f (d :: r')).map (fun p => (JVal.obj p.1, p.2))
    else if c = '-' || isDigitCh c then
      (parseNum (c :: r)).map (fun p => (JVal.num p.1, p.2))
    else none

/-- Parse the comma-separated elements of a non-empty array up to `]`. -/
def parseItems : Nat → List Char → Option (List JVal × List Char)
  | 0, _ => none
  | f + 1, s =>
    match parseVal f s with
    | none => none
    | some (v, r) =>
      match r with
      | [] => none
      | d :: r' =>
        if d = ',' then (parseItems f r').map (fun p => (v :: p.1, p.2))
        else if d = ']' then some ([v], r')
        else none

/-- Parse the comma-separated fields of a non-empty object up to the closing brace. -/
def parseFields : Nat → List Char → Option (List (List Char × JVal) × List Char)
  | 0, _ => none
  | f + 1, s =>
    match s with
    | [] => none
    | c :: r =>
      if c = '"' then
        match parseStrBody r with
        | none => none
        | some (k, r1) =>
          match r1 with
          | [] => none
          | d1 :: r2 =>
            if d1 = ':' then
              match parseVal f r2 with
              | none => none
              | some (v, r3) =>
                match r3 with
                | [] => none
                | d2 :: r4 =>
                  if d2 = ',' then (parseFields f r4).map (fun p => ((k, v) :: p.1, p.2))
                  else if d2 = '\x7d' then some ([(k, v)], r4)
                  else none
            else none
      else none

end

/-- Model of the platform built-in `JSON.parse` on the modelled fragment;
`none` models a thrown `SyntaxError`. -/
def jsonParse (s : List Char) : Option JVal :=
  match parseVal (s.length + 1) s with
  | some (v, []) => some v
  | _ => none

/-- Everything after the first occurrence of `pat` in `s` (`none` when `pat`
does not occur).  Models where a regex match can start, leftmost first. -/
def splitAtFirstSeq (pat : List Char) : List Char → Option (List Char)
  | [] =>
    match dropSeq pat [] with
    | some rest => some rest
    | none => none
  | c :: cs =>
    match dropSeq pat (c :: cs) with
    | some rest => some rest
    | none => splitAtFirstSeq pat cs

/-- Split `s` at the last occurrence of `pat`: what stands before it and what
stands after it.  Models a greedy `[\s\S]*` reaching the final closer. -/
def splitAtLastSeq (pat : List Char) : List Char → Option (List Char × List Char)
  | [] =>
    match dropSeq pat [] with
    | some rest => some ([], rest)
    | none => none
  | c :: cs =>
    match splitAtLastSeq pat cs with
    | some p => some (c :: p.1, p.2)
    | none =>
      match dropSeq pat (c :: cs) with
      | some rest => some ([], rest)
      | none => none

/-- Does `pat` occur in `s`?  Models `String.prototype.includes`. -/
def containsSeq (pat : List Char) (s : List Char) : Bool :=
  (splitAtFirstSeq pat s).isSome

/-- The opener of the fenced-block pattern of `parseJson`. -/
def fencedOpen : List Char := ['`', '`', '`', 'j', 's', 'o', 'n', '\n']

/-- The closer of the fenced-block pattern of `parseJson`. -/
def fencedClose : List Char := ['\n', '`', '`', '`']

/-- The capture group of the fenced-block pattern of `parseJson`
(`match(...)` over the backtick-json regex with a greedy `[\s\S]*` body):
the text between the first opener and the last closer after it. -/
def fencedGroup (s : List Char) : Option (List Char) :=
  match splitAtFirstSeq fencedOpen s with
  | none => none
  | some afterStart =>
    match splitAtLastSeq fencedClose afterStart with
    | none => none
    | some p => some p.1

/-- The argument `parseJson` receives: a string, or any non-string value
(the source only tests `typeof text !== 'string'`). -/
inductive JSArg : Type where
  | str : List Char → JSArg
  | nonString : JSArg

/-- Instrumented model of `parseJson` (src/popup.js lines 289-313): the
returned value, paired with whether the final raw `JSON.parse(text)` was
attempted.  JavaScript `null` is `JVal.null`: a no-parse return and a parsed
JSON `null` are the same returned value, as in the source. -/
def parseJsonT : JSArg → JVal × Bool
  | .nonString => (.null, false)
  | .str text =>
    match fencedGroup text with
    | some g =>
      if g ≠ [] then
        match jsonParse g with
        | some v => (v, false)
        | none => (.null, false)
      else
        match jsonParse text with
        | some v => (v, true)
        | none => (.null, true)
    | none =>
      match jsonParse text with
      | some v => (v, true)
      | none => (.null, true)

/-- Model of `parseJson` (src/popup.js lines 289-313): the returned value. -/
def parseJson (a : JSArg) : JVal := (parseJsonT a).1

mutual

/-- Fuel weight of a value: enough parser fuel to re-read its stringification. -/
def weight : JVal → Nat
  | .null => 1
  | .bool _ => 1
  | .num _ => 1
  | .str _ => 1
  | .arr xs => 1 + weightItems xs
  | .obj kvs => 1 + weightFields kvs

/-- Fuel weight of an array's elements. -/
def weightItems : List JVal → Nat
  | [] => 0
  | x :: xs => weight x + 1 + weightItems xs

/-- Fuel weight of an object's fields. -/
def weightFields : List (List Char × JVal) → Nat
  | [] => 0
  | kv :: kvs => weight kv.2 + 1 + weightFields kvs

end

/-- A character `JSON.stringify` can place in a string within the modelled
escape set: printable, or one of the three control characters it escapes
by name. -/
def GoodChar (c : Char) : Prop := 32 ≤ c.toNat ∨ c = '\n' ∨ c = '\t' ∨ c = '\r'

instance : DecidablePred GoodChar := fun c => by unfold GoodChar; infer_instance

/-- The values of the modelled `JSON.stringify` fragment: strings use only
characters of the modelled escape set, and object keys are distinct, as the
keys of a JavaScript object are. -/
inductive SerialOk : JVal → Prop where
  | null : SerialOk .null
  | bool (b : Bool) : SerialOk (.bool b)
  | num (n : Int) : SerialOk (.num n)
  | str (s : List Char) (h : ∀ c ∈ s, GoodChar c) : SerialOk (.str s)
  | arr (xs : List JVal) (h : ∀ x ∈ xs, SerialOk x) : SerialOk (.arr xs)
  | obj (kvs : List (List Char × JVal)) (hk : ∀ kv ∈ kvs, ∀ c ∈ kv.1, GoodChar c)
      (hnd : (kvs.map Prod.fst).Nodup) (hv : ∀ kv ∈ kvs, SerialOk kv.2) :
      SerialOk (.obj kvs)

/-- The text after a stringified number may not begin with a digit, or the
number parser would read on. -/
def headNotDigit : List Char → Prop
  | [] => True
  | c :: _ => isDigitCh c = false

theorem dropSeq_append (p r : List Char) : dropSeq p (p ++ r) = some r := by
  induction p with
  | nil => rfl
  | cons c cs ih => simp [dropSeq, ih]

theorem isDigitCh_digitCh (d : Nat) (h : d < 10) : isDigitCh (digitCh d) = true := by
  interval_cases d <;> decide

theorem digitVal_digitCh (d : Nat) (h : d < 10) : digitVal (digitCh d) = d := by
  interval_cases d <;> decide

theorem natToDigits_digits (n : Nat) : ∀ c ∈ natToDigits n, isDigitCh c = true := by
  induction n using Nat.strong_induction_on with
  | _ n ih =>
    rw [natToDigits]
    split
    · intro c hc
      simp only [List.mem_singleton] at hc
      subst hc
      exact isDigitCh_digitCh n (by omega)
    · intro c hc
      rw [List.mem_append] at hc
      rcases hc with hc | hc
      · exact ih (n / 10) (Nat.div_lt_self (by omega) (by omega)) c hc
      · simp only [List.mem_singleton] at hc
        subst hc
        exact isDigitCh_digitCh (n % 10) (Nat.mod_lt n (by omega))

theorem natToDigits_ne_nil (n : Nat) : natToDigits n ≠ [] := by
  rw [natToDigits]
  split <;> simp

theorem takeDigits_append (ds : List Char) (hds : ∀ c ∈ ds, isDigitCh c = true) :
    ∀ rest acc, headNotDigit rest →
      takeDigits (ds ++ rest) acc = (ds.foldl (fun a c => a * 10 + digitVal c) acc, rest) := by
  induction ds with
  | nil =>
    intro rest acc hrest
    cases rest with
    | nil => rfl
    | cons c cs => simp [takeDigits, headNotDigit] at hrest ⊢; simp [hrest]
  | cons c cs ih =>
    intro rest acc hrest
    have hc : isDigitCh c = true := hds c (by simp)
    simp only [List.cons_append, takeDigits, hc, if_true, List.foldl_cons]
    exact ih (fun x hx => hds x (by simp [hx])) rest _ hrest

theorem foldl_natToDigits (n : Nat) :
    ∀ acc, (natToDigits n).foldl (fun a c => a * 10 + digitVal c) acc
      = acc * 10 ^ (natToDigits n).length + n := by
  induction n using Nat.strong_induction_on with
  | _ n ih =>
    intro acc
    rw [natToDigits]
    split
    · next h =>
      simp [List.foldl_cons, digitVal_digitCh n h]
    · next h =>
      rw [List.foldl_append, List.length_append, ih (n / 10) (Nat.div_lt_self (by omega) (by omega))]
      simp only [List.foldl_cons, List.foldl_nil, List.length_singleton]
      rw [digitVal_digitCh (n % 10) (Nat.mod_lt n (by omega))]
      rw [pow_succ]
      have := Nat.div_add_mod n 10
      ring_nf
      omega

theorem parseStrBody_close (r : List Char) : parseStrBody ('"' :: r) = some ([], r) := by
  unfold parseStrBody
  simp

theorem parseStrBody_esc (e u : Char) (hu : unescCh e = some u) (r : List Char) :
    parseStrBody ('\\' :: e :: r) = (parseStrBody r).map (fun p => (u :: p.1, p.2)) := by
  conv_lhs => unfold parseStrBody
  simp [hu]

theorem parseStrBody_raw (c : Char) (h1 : c ≠ '"') (h2 : c ≠ '\\') (h3 : 32 ≤ c.toNat)
    (r : List Char) :
    parseStrBody (c :: r) = (parseStrBody r).map (fun p => (c :: p.1, p.2)) := by
  conv_lhs => unfold parseStrBody
  rw [if_neg h1, if_neg h2, if_pos h3]

theorem escChar_raw (c : Char) (h1 : c ≠ '"') (h2 : c ≠ '\\') (h3 : c ≠ '\n')
    (h4 : c ≠ '\t') (h5 : c ≠ '\r') : escChar c = [c] := by
  simp [escChar, h1, h2, h3, h4, h5]

theorem parseStrBody_escString (s : List Char) (hs : ∀ c ∈ s, GoodChar c) (rest : List Char) :
    parseStrBody (escString s ++ ('"' :: rest)) = some (s, rest) := by
  induction s with
  | nil => simpa [escString] using parseStrBody_close rest
  | cons c cs ih =>
    have ihr := ih (fun x hx => hs x (by simp [hx]))
    rw [escString, List.append_assoc]
    by_cases h1 : c = '"'
    · subst h1
      rw [show escChar '"' = ['\\', '"'] from rfl]
      simp [parseStrBody_esc '"' '"' rfl, ihr]
    by_cases h2 : c = '\\'
    · subst h2
      rw [show escChar '\\' = ['\\', '\\'] from rfl]
      simp [parseStrBody_esc '\\' '\\' rfl, ihr]
    by_cases h3 : c = '\n'
    · subst h3
      rw [show escChar '\n' = ['\\', 'n'] from rfl]
      simp [parseStrBody_esc 'n' '\n' rfl, ihr]
    by_cases h4 : c = '\t'
    · subst h4
      rw [show escChar '\t' = ['\\', 't'] from rfl]
      simp [parseStrBody_esc 't' '\t' rfl, ihr]
    by_cases h5 : c = '\r'
    · subst h5
      rw [show escChar '\r' = ['\\', 'r'] from rfl]
      simp [parseStrBody_esc 'r' '\r' rfl, ihr]
    have h3' : 32 ≤ c.toNat := by
      rcases hs c (by simp) with h | h | h | h
      · exact h
      all_goals exact absurd h (by assumption)
    rw [escChar_raw c h1 h2 h3 h4 h5]
    simp [parseStrBody_raw c h1 h2 h3', ihr]

theorem isDigitCh_ne_dash (c : Char) (h : isDigitCh c = true) : c ≠ '-' := by
  intro hc
  subst hc
  exact absurd h (by decide)

theorem parseNum_intToChars (n : Int) (rest : List Char) (hrest : headNotDigit rest) :
    parseNum (intToChars n ++ rest) = some (n, rest) := by
  cases n with
  | ofNat m =>
    obtain ⟨d, ds, hdds⟩ : ∃ d ds, natToDigits m = d :: ds := by
      cases h : natToDigits m with
      | nil => exact absurd h (natToDigits_ne_nil m)
      | cons d ds => exact ⟨d, ds, rfl⟩
    have hd : isDigitCh d = true := natToDigits_digits m d (by rw [hdds]; simp)
    have hds : ∀ c ∈ ds, isDigitCh c = true := fun c hc =>
      natToDigits_digits m c (by rw [hdds]; simp [hc])
    have hfold := foldl_natToDigits m 0
    rw [hdds] at hfold
    simp only [List.foldl_cons, Nat.zero_mul, Nat.zero_add] at hfold
    show parseNum (natToDigits m ++ rest) = some ((m : Int), rest)
    rw [hdds]
    simp only [List.cons_append, parseNum]
    rw [if_neg (isDigitCh_ne_dash d hd), if_pos hd,
      takeDigits_append ds hds rest (digitVal d) hrest]
    simp [hfold]
  | negSucc m =>
    obtain ⟨d, ds, hdds⟩ : ∃ d ds, natToDigits (m + 1) = d :: ds := by
      cases h : natToDigits (m + 1) with
      | nil => exact absurd h (natToDigits_ne_nil (m + 1))
      | cons d ds => exact ⟨d, ds, rfl⟩
    have hd : isDigitCh d = true := natToDigits_digits (m + 1) d (by rw [hdds]; simp)
    have hds : ∀ c ∈ ds, isDigitCh c = true := fun c hc =>
      natToDigits_digits (m + 1) c (by rw [hdds]; simp [hc])
    have hfold := foldl_natToDigits (m + 1) 0
    rw [hdds] at hfold
    simp only [List.foldl_cons, Nat.zero_mul, Nat.zero_add] at hfold
    show parseNum (('-' :: natToDigits (m + 1)) ++ rest) = some (Int.negSucc m, rest)
    rw [hdds]
    simp only [List.cons_append, parseNum]
    simp only [if_true, reduceIte]
    rw [if_pos hd, takeDigits_append ds hds rest (digitVal d) hrest]
    simp only [hfold, Option.some.injEq, Prod.mk.injEq, and_true]
    rw [Int.negSucc_eq]
    push_cast
    ring

theorem weight_pos (v : JVal) : 1 ≤ weight v := by
  cases v <;> simp [weight]

theorem isDigitCh_ne (c c' : Char) (h : isDigitCh c = true) (h' : isDigitCh c' = false) :
    c ≠ c' := by
  intro he
  subst he
  rw [h] at h'
  cases h'

theorem intToChars_head (n : Int) :
    ∃ d ds, intToChars n = d :: ds ∧ (d = '-' ∨ isDigitCh d = true) := by
  cases n with
  | ofNat m =>
    cases h : natToDigits m with
    | nil => exact absurd h (natToDigits_ne_nil m)
    | cons d ds =>
      exact ⟨d, ds, h, Or.inr (natToDigits_digits m d (by rw [h]; simp))⟩
  | negSucc m => exact ⟨'-', natToDigits (m + 1), rfl, Or.inl rfl⟩

theorem stringifyItems_cons (x : JVal) (xs : List JVal) :
    ∃ t, stringifyItems (x :: xs) = stringify x ++ t := by
  cases xs with
  | nil => exact ⟨[], by simp [stringifyItems]⟩
  | cons y ys => exact ⟨',' :: stringifyItems (y :: ys), rfl⟩

theorem stringifyHead (v : JVal) :
    ∃ c cs, stringify v = c :: cs ∧ c ≠ ']' ∧ c ≠ '\x7d' := by
  cases v with
  | null => exact ⟨'n', _, rfl, by decide, by decide⟩
  | bool b => cases b with
    | true => exact ⟨'t', _, rfl, by decide, by decide⟩
    | false => exact ⟨'f', _, rfl, by decide, by decide⟩
  | num n =>
    obtain ⟨d, ds, hd, hdisj⟩ := intToChars_head n
    refine ⟨d, ds, hd, ?_, ?_⟩ <;>
      (rcases hdisj with h | h
       · subst h; decide
       · exact isDigitCh_ne d _ h (by decide))
  | str s => exact ⟨'"', _, rfl, by decide, by decide⟩
  | arr xs => exact ⟨'[', _, rfl, by decide, by decide⟩
  | obj kvs => exact ⟨'\x7b', _, rfl, by decide, by decide⟩

/-- The round-trip property of one value: the parser reads its
stringification back, for any delimiter continuation. -/
def ParsesBack (x : JVal) : Prop :=
  ∀ f rest, weight x ≤ f → headNotDigit rest →
    parseVal f (stringify x ++ rest) = some (x, rest)

theorem parseItems_complete :
    ∀ xs : List JVal, (∀ x ∈ xs, ParsesBack x) → xs ≠ [] →
      ∀ f rest, weightItems xs ≤ f → headNotDigit rest →
        parseItems f (stringifyItems xs ++ (']' :: rest)) = some (xs, rest) := by
  intro xs
  induction xs with
  | nil => intro _ hne; exact absurd rfl hne
  | cons x xs ih =>
    intro hIH _ f rest hw hrest
    have hx : ParsesBack x := hIH x (by simp)
    have hwx := weight_pos x
    simp only [weightItems] at hw
    obtain ⟨f', rfl⟩ : ∃ f', f = f' + 1 := by
      cases f with
      | zero => omega
      | succ f' => exact ⟨f', rfl⟩
    conv_lhs => unfold parseItems
    cases xs with
    | nil =>
      rw [show stringifyItems [x] = stringify x from rfl]
      rw [hx f' (']' :: rest) (by omega) (by exact (by decide : isDigitCh ']' = false))]
      simp
    | cons y ys =>
      rw [show stringifyItems (x :: y :: ys) = stringify x ++ ',' :: stringifyItems (y :: ys)
        from rfl]
      simp only [List.append_assoc, List.cons_append, List.nil_append]
      rw [hx f' (',' :: (stringifyItems (y :: ys) ++ ']' :: rest)) (by omega)
        (by exact (by decide : isDigitCh ',' = false))]
      simp only [reduceIte]
      rw [ih (fun z hz => hIH z (by simp [hz])) (by simp) f' rest (by omega) hrest]
      rfl

theorem parseFields_complete :
    ∀ kvs : List (List Char × JVal), (∀ kv ∈ kvs, ∀ c ∈ kv.1, GoodChar c) →
      (∀ kv ∈ kvs, ParsesBack kv.2) → kvs ≠ [] →
      ∀ f rest, weightFields kvs ≤ f → headNotDigit rest →
        parseFields f (stringifyFields kvs ++ ('\x7d' :: rest)) = some (kvs, rest) := by
  intro kvs
  induction kvs with
  | nil => intro _ _ hne; exact absurd rfl hne
  | cons kv kvs ih =>
    obtain ⟨k, v⟩ := kv
    intro hk hv _ f rest hw hrest
    have hvx : ParsesBack v := hv (k, v) (by simp)
    have hgk : ∀ c ∈ k, GoodChar c := hk (k, v) (by simp)
    have hwv := weight_pos v
    simp only [weightFields] at hw
    obtain ⟨f', rfl⟩ : ∃ f', f = f' + 1 := by
      cases f with
      | zero => omega
      | succ f' => exact ⟨f', rfl⟩
    conv_lhs => unfold parseFields
    cases kvs with
    | nil =>
      rw [show stringifyFields [(k, v)] = ('"' :: (escString k ++ ['"', ':'])) ++ stringify v
        from rfl]
      simp only [List.append_assoc, List.cons_append, List.nil_append]
      rw [parseStrBody_escString k hgk (':' :: (stringify v ++ '\x7d' :: rest))]
      simp only [reduceIte]
      rw [hvx f' ('\x7d' :: rest) (by omega)
        (by exact (by decide : isDigitCh '\x7d' = false))]
      simp
    | cons kv2 kvs2 =>
      rw [show stringifyFields ((k, v) :: kv2 :: kvs2)
          = ('"' :: (escString k ++ ['"', ':'])) ++ stringify v
            ++ ',' :: stringifyFields (kv2 :: kvs2) from rfl]
      simp only [List.append_assoc, List.cons_append, List.nil_append]
      rw [parseStrBody_escString k hgk
        (':' :: (stringify v ++ ',' :: (stringifyFields (kv2 :: kvs2) ++ '\x7d' :: rest)))]
      simp only [reduceIte]
      rw [hvx f' (',' :: (stringifyFields (kv2 :: kvs2) ++ '\x7d' :: rest)) (by omega)
        (by exact (by decide : isDigitCh ',' = false))]
      simp only [reduceIte]
      rw [ih (fun z hz => hk z (by simp [hz])) (fun z hz => hv z (by simp [hz])) (by simp)
        f' rest (by omega) hrest]
      rfl

theorem numHead_ne (d : Char) (hdisj : d = '-' ∨ isDigitCh d = true) (c : Char)
    (hc : isDigitCh c = false) (hdash : c ≠ '-') : d ≠ c := by
  rcases hdisj with h | h
  · subst h
    exact fun he => hdash he.symm
  · exact isDigitCh_ne d c h hc

theorem stringifyFields_cons (kv : List Char × JVal) (kvs : List (List Char × JVal)) :
    ∃ t, stringifyFields (kv :: kvs) = '"' :: t := by
  obtain ⟨k, v⟩ := kv
  cases kvs with
  | nil => exact ⟨(escString k ++ ['"', ':']) ++ stringify v, rfl⟩
  | cons kv2 kvs2 =>
    exact ⟨(escString k ++ ['"', ':']) ++ stringify v ++ ',' :: stringifyFields (kv2 :: kvs2),
      rfl⟩

theorem parseVal_stringify (v : JVal) (hv : SerialOk v) : ParsesBack v := by
  induction hv with
  | null =>
    intro f rest hw hrest
    obtain ⟨f', rfl⟩ : ∃ f', f = f' + 1 := by
      cases f with
      | zero => exact absurd hw (by simp [weight])
      | succ f' => exact ⟨f', rfl⟩
    rw [show stringify JVal.null = ['n', 'u', 'l', 'l'] from rfl]
    simp only [List.cons_append, List.nil_append]
    conv_lhs => unfold parseVal
    simp [dropSeq]
  | bool b =>
    intro f rest hw hrest
    obtain ⟨f', rfl⟩ : ∃ f', f = f' + 1 := by
      cases f with
      | zero => exact absurd hw (by simp [weight])
      | succ f' => exact ⟨f', rfl⟩
    cases b with
    | true =>
      rw [show stringify (JVal.bool true) = ['t', 'r', 'u', 'e'] from rfl]
      simp only [List.cons_append, List.nil_append]
      conv_lhs => unfold parseVal
      simp [dropSeq]
    | false =>
      rw [show stringify (JVal.bool false) = ['f', 'a', 'l', 's', 'e'] from rfl]
      simp only [List.cons_append, List.nil_append]
      conv_lhs => unfold parseVal
      simp [dropSeq]
  | num n =>
    intro f rest hw hrest
    obtain ⟨f', rfl⟩ : ∃ f', f = f' + 1 := by
      cases f with
      | zero => exact absurd hw (by simp [weight])
      | succ f' => exact ⟨f', rfl⟩
    obtain ⟨d, ds, hd, hdisj⟩ := intToChars_head n
    have hnum : parseNum (d :: (ds ++ rest)) = some (n, rest) := by
      rw [show d :: (ds ++ rest) = intToChars n ++ rest from by rw [hd]; rfl]
      exact parseNum_intToChars n rest hrest
    rw [show stringify (.num n) = intToChars n from rfl, hd]
    simp only [List.cons_append]
    conv_lhs => unfold parseVal
    rw [if_neg (numHead_ne d hdisj 'n' (by decide) (by decide)),
      if_neg (numHead_ne d hdisj 't' (by decide) (by decide)),
      if_neg (numHead_ne d hdisj 'f' (by decide) (by decide)),
      if_neg (numHead_ne d hdisj '"' (by decide) (by decide)),
      if_neg (numHead_ne d hdisj '[' (by decide) (by decide)),
      if_neg (numHead_ne d hdisj '\x7b' (by decide) (by decide))]
    have hcond : (decide (d = '-') || isDigitCh d) = true := by
      rcases hdisj with h | h
      · simp [h]
      · simp [h]
    rw [if_pos hcond, hnum]
    rfl
  | str s hgood =>
    intro f rest hw hrest
    obtain ⟨f', rfl⟩ : ∃ f', f = f' + 1 := by
      cases f with
      | zero => exact absurd hw (by simp [weight])
      | succ f' => exact ⟨f', rfl⟩
    rw [show stringify (.str s) = '"' :: (escString s ++ ['"']) from rfl]
    simp only [List.cons_append, List.append_assoc, List.nil_append]
    conv_lhs => unfold parseVal
    simp only [reduceIte]
    rw [parseStrBody_escString s hgood rest]
    rfl
  | arr xs hmem ih =>
    intro f rest hw hrest
    simp only [weight] at hw
    obtain ⟨f', rfl⟩ : ∃ f', f = f' + 1 := by
      cases f with
      | zero => omega
      | succ f' => exact ⟨f', rfl⟩
    cases xs with
    | nil =>
      rw [show stringify (.arr []) = ['[', ']'] from rfl]
      simp only [List.cons_append, List.nil_append]
      conv_lhs => unfold parseVal
      simp
    | cons x xs' =>
      obtain ⟨c0, cs0, hc0, hne1, hne2⟩ := stringifyHead x
      obtain ⟨t, ht⟩ := stringifyItems_cons x xs'
      have hshape : stringifyItems (x :: xs') ++ (']' :: rest)
          = c0 :: (cs0 ++ (t ++ (']' :: rest))) := by
        rw [ht, hc0]
        simp
      rw [show stringify (.arr (x :: xs')) = '[' :: (stringifyItems (x :: xs') ++ [']'])
        from rfl]
      simp only [List.cons_append, List.append_assoc, List.nil_append]
      conv_lhs => unfold parseVal
      simp only []
      rw [if_neg (show ¬('[' = 'n') from by decide), if_neg (show ¬('[' = 't') from by decide),
        if_neg (show ¬('[' = 'f') from by decide), if_neg (show ¬('[' = '"') from by decide),
        if_pos trivial, hshape]
      simp only []
      rw [if_neg hne1, ← hshape,
        parseItems_complete (x :: xs') ih (by simp) f' rest (by omega) hrest]
      rfl
  | obj kvs hk hnd hv ih =>
    intro f rest hw hrest
    simp only [weight] at hw
    obtain ⟨f', rfl⟩ : ∃ f', f = f' + 1 := by
      cases f with
      | zero => omega
      | succ f' => exact ⟨f', rfl⟩
    cases kvs with
    | nil =>
      rw [show stringify (.obj []) = ['\x7b', '\x7d'] from rfl]
      simp only [List.cons_append, List.nil_append]
      conv_lhs => unfold parseVal
      simp
    | cons kv kvs' =>
      obtain ⟨t, ht⟩ := stringifyFields_cons kv kvs'
      have hshape : stringifyFields (kv :: kvs') ++ ('\x7d' :: rest)
          = '"' :: (t ++ ('\x7d' :: rest)) := by
        rw [ht]
        simp
      rw [show stringify (.obj (kv :: kvs'))
          = '\x7b' :: (stringifyFields (kv :: kvs') ++ ['\x7d']) from rfl]
      simp only [List.cons_append, List.append_assoc, List.nil_append]
      conv_lhs => unfold parseVal
      simp only []
      rw [if_neg (show ¬('\x7b' = 'n') from by decide),
        if_neg (show ¬('\x7b' = 't') from by decide),
        if_neg (show ¬('\x7b' = 'f') from by decide),
        if_neg (show ¬('\x7b' = '"') from by decide),
        if_neg (show ¬('\x7b' = '[') from by decide),
        if_pos trivial, hshape]
      simp only []
      rw [if_neg (show ¬('"' = '\x7d') from by decide), ← hshape,
        parseFields_complete (kv :: kvs') hk ih (by simp) f' rest (by omega) hrest]
      rfl

theorem newline_not_in_escChar (c : Char) : '\n' ∉ escChar c := by
  unfold escChar
  split_ifs with h1 h2 h3 h4 h5 <;> simp
  exact fun he => h3 he.symm

theorem newline_not_in_escString (s : List Char) : '\n' ∉ escString s := by
  induction s with
  | nil => simp [escString]
  | cons c cs ih =>
    simp only [escString, List.mem_append]
    rintro (h | h)
    · exact newline_not_in_escChar c h
    · exact ih h

theorem newline_not_in_intToChars (n : Int) : '\n' ∉ intToChars n := by
  cases n with
  | ofNat m =>
    intro h
    have := natToDigits_digits m '\n' h
    exact absurd this (by decide)
  | negSucc m =>
    simp only [intToChars, List.mem_cons]
    rintro (h | h)
    · exact absurd h (by decide)
    · exact absurd (natToDigits_digits (m + 1) '\n' h) (by decide)

mutual

theorem stringify_noNL : ∀ v : JVal, '\n' ∉ stringify v
  | .null => by decide
  | .bool true => by decide
  | .bool false => by decide
  | .num n => newline_not_in_intToChars n
  | .str s => by
    simp only [stringify, List.mem_cons, List.mem_append]
    rintro (h | h | h)
    · exact absurd h (by decide)
    · exact newline_not_in_escString s h
    · exact absurd h (by decide)
  | .arr xs => by
    simp only [stringify, List.mem_cons, List.mem_append]
    rintro (h | h | h)
    · exact absurd h (by decide)
    · exact stringifyItems_noNL xs h
    · exact absurd h (by decide)
  | .obj kvs => by
    simp only [stringify, List.mem_cons, List.mem_append]
    rintro (h | h | h)
    · exact absurd h (by decide)
    · exact stringifyFields_noNL kvs h
    · exact absurd h (by decide)

theorem stringifyItems_noNL : ∀ xs : List JVal, '\n' ∉ stringifyItems xs
  | [] => by simp [stringifyItems]
  | [x] => by simpa [stringifyItems] using stringify_noNL x
  | x :: y :: ys => by
    simp only [stringifyItems, List.mem_append, List.mem_cons]
    rintro (h | h | h)
    · exact stringify_noNL x h
    · exact absurd h (by decide)
    · exact stringifyItems_noNL (y :: ys) h

theorem stringifyFields_noNL : ∀ kvs : List (List Char × JVal), '\n' ∉ stringifyFields kvs
  | [] => by simp [stringifyFields]
  | [(k, v)] => by
    simp only [stringifyFields, List.cons_append, List.mem_cons, List.mem_append]
    rintro (h | (h | h | h | h) | h)
    · exact absurd h (by decide)
    · exact newline_not_in_escString k h
    · exact absurd h (by decide)
    · exact absurd h (by decide)
    · exact absurd h (List.not_mem_nil _)
    · exact stringify_noNL v h
  | (k, v) :: kv :: kvs => by
    simp only [stringifyFields, List.cons_append, List.mem_cons, List.mem_append]
    rintro (h | ((h | h | h | h) | h) | h | h)
    · exact absurd h (by decide)
    · exact newline_not_in_escString k h
    · exact absurd h (by decide)
    · exact absurd h (by decide)
    · exact absurd h (List.not_mem_nil _)
    · exact stringify_noNL v h
    · exact absurd h (by decide)
    · exact stringifyFields_noNL (kv :: kvs) h

end

theorem intToChars_ne_nil (n : Int) : intToChars n ≠ [] := by
  cases n with
  | ofNat m => exact natToDigits_ne_nil m
  | negSucc m => simp [intToChars]

theorem weightItems_le (xs : List JVal) (h : ∀ x ∈ xs, weight x ≤ (stringify x).length) :
    weightItems xs ≤ (stringifyItems xs).length + 1 := by
  induction xs with
  | nil => simp [weightItems, stringifyItems]
  | cons x xs ih =>
    cases xs with
    | nil =>
      have := h x (by simp)
      simp only [weightItems, stringifyItems]
      omega
    | cons y ys =>
      have h1 := h x (by simp)
      have h2 := ih (fun z hz => h z (by simp [hz]))
      simp only [weightItems, stringifyItems, List.length_append, List.length_cons] at h2 ⊢
      omega

theorem weightFields_le (kvs : List (List Char × JVal))
    (h : ∀ kv ∈ kvs, weight kv.2 ≤ (stringify kv.2).length) :
    weightFields kvs ≤ (stringifyFields kvs).length + 1 := by
  induction kvs with
  | nil => simp [weightFields, stringifyFields]
  | cons kv kvs ih =>
    obtain ⟨k, v⟩ := kv
    cases kvs with
    | nil =>
      have := h (k, v) (by simp)
      simp only [weightFields, stringifyFields, List.cons_append, List.length_append,
        List.length_cons] at this ⊢
      omega
    | cons kv2 kvs2 =>
      have h1 := h (k, v) (by simp)
      have h2 := ih (fun z hz => h z (by simp [hz]))
      simp only [weightFields, stringifyFields, List.cons_append, List.length_append,
        List.length_cons] at h1 h2 ⊢
      omega

theorem weight_le_length (v : JVal) (hv : SerialOk v) : weight v ≤ (stringify v).length := by
  induction hv with
  | null => decide
  | bool b => cases b <;> decide
  | num n =>
    rw [show stringify (.num n) = intToChars n from rfl, show weight (.num n) = 1 from rfl]
    exact List.length_pos.mpr (intToChars_ne_nil n)
  | str s hgood =>
    rw [show weight (.str s) = 1 from rfl,
      show stringify (.str s) = '"' :: (escString s ++ ['"']) from rfl]
    simp
  | arr xs hmem ih =>
    rw [show weight (.arr xs) = 1 + weightItems xs from rfl,
      show stringify (.arr xs) = '[' :: (stringifyItems xs ++ [']']) from rfl]
    have := weightItems_le xs ih
    simp only [List.length_cons, List.length_append, List.length_singleton]
    omega
  | obj kvs hk hnd hv ih =>
    rw [show weight (.obj kvs) = 1 + weightFields kvs from rfl,
      show stringify (.obj kvs) = '\x7b' :: (stringifyFields kvs ++ ['\x7d']) from rfl]
    have := weightFields_le kvs ih
    simp only [List.length_cons, List.length_append, List.length_singleton]
    omega

theorem dropSeq_eq_some (p : List Char) : ∀ s r, dropSeq p s = some r ↔ s = p ++ r := by
  induction p with
  | nil =>
    intro s r
    simp [dropSeq, eq_comm]
  | cons a as ih =>
    intro s r
    cases s with
    | nil => simp [dropSeq]
    | cons b bs =>
      by_cases hb : b = a
      · subst hb
        simp [dropSeq, ih bs r]
      · simp [dropSeq, hb]

theorem splitAtFirstSeq_none (pat s : List Char) (c : Char) (hc : c ∈ pat) (hs : c ∉ s) :
    splitAtFirstSeq pat s = none := by
  induction s with
  | nil =>
    cases pat with
    | nil => exact absurd hc (List.not_mem_nil c)
    | cons p ps => simp [splitAtFirstSeq, dropSeq]
  | cons d ds ih =>
    have hdrop : dropSeq pat (d :: ds) = none := by
      cases h : dropSeq pat (d :: ds) with
      | none => rfl
      | some r =>
        have he := (dropSeq_eq_some pat (d :: ds) r).mp h
        rw [he] at hs
        exact absurd (List.mem_append.mpr (Or.inl hc)) hs
    conv_lhs => unfold splitAtFirstSeq
    rw [hdrop]
    exact ih (fun h => hs (List.mem_cons_of_mem d h))

theorem jsonParse_stringify (v : JVal) (hv : SerialOk v) : jsonParse (stringify v) = some v := by
  unfold jsonParse
  have h := parseVal_stringify v hv ((stringify v).length + 1) []
    (le_trans (weight_le_length v hv) (by omega)) trivial
  rw [List.append_nil] at h
  rw [h]

theorem fencedGroup_stringify (v : JVal) : fencedGroup (stringify v) = none := by
  unfold fencedGroup
  rw [splitAtFirstSeq_none fencedOpen (stringify v) '\n' (by decide) (stringify_noNL v)]

theorem parseJson_stringify (v : JVal) (hv : SerialOk v) :
    parseJson (.str (stringify v)) = v := by
  unfold parseJson parseJsonT
  simp only []
  rw [fencedGroup_stringify v, jsonParse_stringify v hv]

theorem parseJson_malformed (s : List Char) (hraw : jsonParse s = none)
    (hfen : ∀ g, fencedGroup s = some g → jsonParse g = none) :
    parseJson (.str s) = .null := by
  unfold parseJson parseJsonT
  simp only []
  cases hg : fencedGroup s with
  | none =>
    try rw [hg]
    rw [hraw]
  | some g =>
    try rw [hg]
    simp only []
    by_cases hgn : g = []
    · subst hgn
      simp [hraw]
    · rw [if_pos hgn, hfen g hg]

/-- The errors the modelled `callGemini` can raise. -/
inductive JsErr : Type where
  | apiError (status : Nat) (body : List Char)
  | netError
  | emptyOutput
  | typeError (msg : List Char)
  | outOfOutcomes
  deriving DecidableEq

/-- One simulated transport outcome for one attempt of `callGemini`:
a response with `resp.ok` false, a network-level failure of `fetch`, or an
ok response whose extracted candidate text is `genText` (empty when the
envelope held none, as the source coalesces it with an empty string). -/
inductive Outcome : Type where
  | httpError (status : Nat) (body : List Char)
  | netFail
  | success (genText : List Char)
  deriving DecidableEq

/-- Observable trace of one `callGemini` run: how many attempts were made,
the backoff delays slept in order, and the outcome. -/
structure CallTrace (α : Type) : Type where
  attempts : Nat
  delays : List Nat
  result : Except JsErr α

instance {ε α : Type} [DecidableEq ε] [DecidableEq α] : DecidableEq (Except ε α)
  | .ok a, .ok b => decidable_of_iff (a = b) (by simp)
  | .error a, .error b => decidable_of_iff (a = b) (by simp)
  | .ok _, .error _ => isFalse (by simp)
  | .error _, .ok _ => isFalse (by simp)

instance {α : Type} [DecidableEq α] : DecidableEq (CallTrace α) := fun a b =>
  decidable_of_iff (a.attempts = b.attempts ∧ a.delays = b.delays ∧ a.result = b.result)
    (by cases a; cases b; simp)

/-- The backoff delay before retrying attempt number `attempt`:
`BASE_DELAY_MS * Math.pow(2, attempt - 1)` with `BASE_DELAY_MS = 500`. -/
def backoffDelay (attempt : Nat) : Nat := 500 * 2 ^ (attempt - 1)

/-- A retry: one more attempt, one more sleep, same eventual result. -/
def retryCons (attempt : Nat) (t : CallTrace JVal) : CallTrace JVal :=
  ⟨t.attempts + 1, backoffDelay attempt :: t.delays, t.result⟩

/-- The retry loop of `callGemini` (gemini.js lines 103-161, part_005 lines
151-229; both have the same control flow), one simulated outcome per
attempt.  `MAX_RETRIES = 3`.  Faithful to the source, the 4xx `throw` is
raised inside the `try`, so the `catch` retries it like any other error
while attempts remain; only a 5xx takes the explicit `continue` path.  The
empty-text throw and an error thrown by `normalize` are likewise caught and
retried.  An empty outcome list means the simulation supplies no transport
for the attempt. -/
def geminiGo (normalize : List Char → Except JsErr JVal) :
    Nat → List Outcome → CallTrace JVal
  | _, [] => ⟨0, [], .error .outOfOutcomes⟩
  | attempt, o :: rest =>
    match o with
    | .httpError st body =>
      if 500 ≤ st ∧ attempt < 3 then
        retryCons attempt (geminiGo normalize (attempt + 1) rest)
      else if attempt < 3 then
        retryCons attempt (geminiGo normalize (attempt + 1) rest)
      else ⟨1, [], .error (.apiError st body)⟩
    | .netFail =>
      if attempt < 3 then retryCons attempt (geminiGo normalize (attempt + 1) rest)
      else ⟨1, [], .error .netError⟩
    | .success gen =>
      match (if gen = [] then Except.error JsErr.emptyOutput else normalize gen) with
      | .ok v => ⟨1, [], .ok v⟩
      | .error e =>
        if attempt < 3 then retryCons attempt (geminiGo normalize (attempt + 1) rest)
        else ⟨1, [], .error e⟩

/-- Normalization of the parsed model text in gemini.js (lines 137-145):
a parsed array is returned as the steps; anything else, a null parse
included, returns an empty array, with success. -/
def normalizeV1 (genText : List Char) : Except JsErr JVal :=
  match parseJson (.str genText) with
  | .arr xs => .ok (.arr xs)
  | _ => .ok (.arr [])

/-- `callGemini` of gemini.js over simulated outcomes. -/
def callGeminiV1 (outcomes : List Outcome) : CallTrace JVal :=
  geminiGo normalizeV1 1 outcomes

/-- The existing-tour context `callGemini` of part_005 can receive. -/
structure Tour : Type where
  tourName : String
  description : String
  formInputs : Option JVal

/-- `{type: "tour", data: result}`. -/
def tourWrap (r : JVal) : JVal :=
  .obj [("type".data, .str "tour".data), ("data".data, r)]

/-- `{type: "unknown", data: result}`. -/
def unknownWrap (r : JVal) : JVal :=
  .obj [("type".data, .str "unknown".data), ("data".data, r)]

/-- `{type: "fill_input_form", data: {tourName, formInput: result}}`. -/
def fillWrap (tourName : String) (r : JVal) : JVal :=
  .obj [("type".data, .str "fill_input_form".data),
    ("data".data, .obj [("tourName".data, .str tourName.data), ("formInput".data, r)])]

/-- Normalization of the parsed model output in part_005 (lines 182-215).
The gate is the truthiness test `!result || !result.type || !result.data`.
In the fallback, `Array.isArray` is checked first; then
`typeof result === 'object'`, which is true of JavaScript `null`, so a null
parse reaches `result[0]` and throws a TypeError; an object whose element 0
has a truthy `popover` becomes a tour; an object sharing a key with the
tour's `formInputs` becomes a `fill_input_form`; anything else, scalars
included, is wrapped as `unknown`. -/
def normalizeResultV2 (tour : Option Tour) (result : JVal) : Except JsErr JVal :=
  if jsTruthy result = false ∨ jsTruthyProp result ("type".data) = false
      ∨ jsTruthyProp result ("data".data) = false then
    match result with
    | .arr _ => .ok (tourWrap result)
    | .null => .error (.typeError "Cannot read properties of null".data)
    | .obj _ =>
      if jsTruthyProp result ("0".data) = true
          ∧ (match jsGetProp result ("0".data) with
             | some x => jsTruthyProp x ("popover".data)
             | none => false) = true then
        .ok (tourWrap result)
      else
        match tour with
        | some t =>
          match t.formInputs with
          | some fi =>
            if jsTruthy fi then
              if (jsKeys result).any (fun k => (jsKeys fi).contains k) then
                .ok (fillWrap t.tourName result)
              else .ok (unknownWrap result)
            else .ok (unknownWrap result)
          | none => .ok (unknownWrap result)
        | none => .ok (unknownWrap result)
    | _ => .ok (unknownWrap result)
  else .ok result

/-- part_005's normalization from the generated text: parse, then shape. -/
def normalizeV2 (tour : Option Tour) (genText : List Char) : Except JsErr JVal :=
  normalizeResultV2 tour (parseJson (.str genText))

/-- `callGemini` of part_005 over simulated outcomes. -/
def callGeminiV2 (tour : Option Tour) (outcomes : List Outcome) : CallTrace JVal :=
  geminiGo (normalizeV2 tour) 1 outcomes

/-- The page snapshot the Renderer produces and the Gateway serializes. -/
structure PageCtx : Type where
  title : String
  url : String
  textSnippet : Option String
  timestamp : Nat
  deriving DecidableEq

/-- What `buildContextPrompt` receives: in part_005 the caller overwrites the
snapshot with the empty string (line 133), a falsy value, before this call. -/
inductive CtxArg : Type where
  | emptyString : CtxArg
  | ctx : PageCtx → CtxArg

/-- Join a list of strings with a separator, as `Array.prototype.join`. -/
def joinSep (sep : String) : List String → String
  | [] => ""
  | [x] => x
  | x :: y :: ys => x ++ sep ++ joinSep sep (y :: ys)

/-- Whitespace for the model of `String.prototype.trim`. -/
def isJsWs (c : Char) : Bool :=
  c = ' ' || c = '\n' || c = '\t' || c = '\r' || c = '\x0b' || c = '\x0c'

/-- Model of `String.prototype.trim`. -/
def trimChars (s : List Char) : List Char :=
  ((s.dropWhile isJsWs).reverse.dropWhile isJsWs).reverse

/-- Model of `String.prototype.trim` on `String`. -/
def trimStr (s : String) : String := String.mk (trimChars s.data)

/-- `String.prototype.slice(0, n)`: the first `n` characters.  Written by
structural recursion on the character list so that it evaluates in depth
proportional to the string, not to `n`. -/
def sliceTo (n : Nat) : List Char → List Char
  | [] => []
  | c :: cs => if n = 0 then [] else c :: sliceTo (n - 1) cs

/-- `buildContextPrompt` (part_005 lines 25-39; identical in gemini.js):
pushes a `Title:`, a `URL:` and a snippet part for each truthy field, the
snippet sliced to `MAX_CONTEXT_SNIPPET_LENGTH = 8000`; an empty or falsy
context yields the empty string. -/
def buildContextPrompt : CtxArg → String
  | .emptyString => ""
  | .ctx c =>
    let parts : List String :=
      (if c.title ≠ "" then ["Title: " ++ c.title] else []) ++
      (if c.url ≠ "" then ["URL: " ++ c.url] else []) ++
      (match c.textSnippet with
       | some snip => if snip ≠ "" then ["Page text snippet:\n" ++ String.mk (sliceTo 8000 snip.data)] else []
       | none => [])
    if parts = [] then "" else "---PAGE CONTEXT---\n" ++ joinSep "\n\n" parts

/-- The base of part_005's `buildOutputInstruction` (lines 48-52). -/
def instrHeaderV2 : String :=
  "\n---RESPONSE FORMAT---\nReturn ONLY a JSON object (no surrounding text).\nThe object must have a \"type\" property and a \"data\" property.\n"

/-- The `hasPageContext` block of part_005's `buildOutputInstruction`
(lines 55-80). -/
def instrTourBlockV2 : String :=
  "\nIF YOU GENERATE A NEW TOUR (type=\"tour\"):\n\"data\" must be an array of step objects.\nEach entry must be an object with the following shape when targeting a page element:\n\x7b\n  \"element\": \"<css selector>\",\n  \"popover\": \x7b\n    \"title\": \"...\",\n    \"description\": \"...\",\n    \"side\": \"left|right|top|bottom\",\n    \"align\": \"start|center|end\"\n  \x7d\n\x7d\nSelector rules:\n- Use only CSS selectors that work with document.querySelector(). Do NOT use XPath.\n- Prefer id (#id) or specific class combinations.\n- Avoid brittle selectors.\n\nExample tour output:\n\x7b\n  \"type\": \"tour\",\n  \"data\": [\n    \x7b \"element\": \"#header\", \"popover\": \x7b \"title\": \"Header\", \"description\": \"...\" \x7d \x7d\n  ]\n\x7d\n"

/-- `tour.formInputs ? Object.keys(tour.formInputs) : []` (line 84). -/
def tourKeys (t : Tour) : List (List Char) :=
  match t.formInputs with
  | some fi => if jsTruthy fi then jsKeys fi else []
  | none => []

/-- The existing-tour block of part_005's `buildOutputInstruction`
(lines 85-104), with its two interpolations. -/
def instrFillBlockV2 (t : Tour) : String :=
  "\nIF YOU FILL INPUTS FOR EXISTING TOUR (type=\"fill_input_form\"):\n\"data\" must be an object containing \"tourName\" and \"formInput\".\n- \"tourName\": Must be \"" ++ t.tourName
  ++ "\".\n- \"formInput\": An object where keys are the target input keys and values are extracted from the User Prompt.\n\nTarget Input Keys: "
  ++ String.mk (stringify (.arr ((tourKeys t).map JVal.str)))
  ++ "\n\nExample fill_input_form output:\n\x7b\n  \"type\": \"fill_input_form\",\n  \"data\": \x7b\n    \"tourName\": \"" ++ t.tourName
  ++ "\",\n    \"formInput\": \x7b\n      \"origin\": \"London\",\n      \"destination\": \"Paris\"\n    \x7d\n  \x7d\n\x7d\n"

/-- The decision block of part_005's `buildOutputInstruction` (lines 107-111). -/
def instrDecisionV2 : String :=
  "\nDECISION LOGIC:\n- If you are provided with an EXISTING TOUR, you MUST return type=\"fill_input_form\".\n- If the user asks for a new tour and you have Page Context, return type=\"tour\".\n"

/-- part_005's `buildOutputInstruction` (lines 47-113). -/
def buildOutputInstructionV2 (hasPageContext : Bool) (tour : Option Tour) : String :=
  let base := instrHeaderV2
  let withCtx := if hasPageContext then base ++ instrTourBlockV2 else base
  let withTour :=
    match tour with
    | some t => withCtx ++ instrFillBlockV2 t
    | none => withCtx
  trimStr (withTour ++ instrDecisionV2)

/-- `JSON.stringify(tour.formInputs)` at part_005 line 142: an absent field
stringifies to `undefined`, which the template renders as the word. -/
def formInputsText (t : Tour) : String :=
  match t.formInputs with
  | some fi => String.mk (stringify fi)
  | none => "undefined"

/-- The outbound prompt text part_005's `callGemini` builds (lines 129-149).
Line 133 executes `pageContext = "";` before any use, so `hasPageContext`
is false (`Object.keys("")` is empty) and `buildContextPrompt` receives the
empty string: the received snapshot never reaches the text. -/
def combinedTextV2 (userPrompt : String) (_contextData : Option PageCtx)
    (tour : Option Tour) : String :=
  let hasPageContext := false
  let contextPrompt := buildContextPrompt .emptyString
  let outputInstruction := buildOutputInstructionV2 hasPageContext tour
  let base := "User Prompt: \"" ++ userPrompt ++ "\"\n\n" ++ contextPrompt
  let withTour :=
    match tour with
    | some t =>
      base ++ "\n\n---EXISTING TOUR---\nName: " ++ t.tourName ++ "\nDescription: "
        ++ t.description ++ "\nForm Inputs: " ++ formInputsText t
    | none => base
  withTour ++ "\n\n" ++ outputInstruction

/-- `isMissingReceiverError` (part_002 lines 17-18): the failure message
contains one of the two no-listener phrases. -/
def isMissingReceiverError (msg : List Char) : Bool :=
  containsSeq ("Could not establish connection".data) msg
    || containsSeq ("Receiving end does not exist".data) msg

/-- The environment of one `sendMessageWithInjectionRetry` call: what the
initial send, the script injection and the retry send would each produce.
Errors carry their message text. -/
structure SendEnv (α : Type) : Type where
  firstSend : Except (List Char) α
  injection : Except (List Char) Unit
  retrySend : Except (List Char) α

/-- Observable effect counts of one send: `chrome.tabs.sendMessage` calls
and `chrome.scripting.executeScript` calls. -/
structure SendTrace : Type where
  sends : Nat
  injections : Nat
  deriving DecidableEq

/-- Model of `sendMessageWithInjectionRetry` (part_002 lines 40-67):
a first send; on a missing-receiver failure, one injection and one retry
send, whose failure (or the injection's) is wrapped and thrown with no
further attempt; any other first-send failure is wrapped and thrown at
once. -/
def sendMessageWithInjectionRetry {α : Type} (env : SendEnv α) :
    SendTrace × Except (List Char) α :=
  match env.firstSend with
  | .ok r => (⟨1, 0⟩, .ok r)
  | .error e =>
    if isMissingReceiverError e = false then
      (⟨1, 0⟩, .error ("SendMessage failed: ".data ++ e))
    else
      match env.injection with
      | .error ie =>
        (⟨1, 1⟩, .error ("Failed to inject content script or retry message failed: ".data ++ ie))
      | .ok _ =>
        match env.retrySend with
        | .ok r => (⟨2, 1⟩, .ok r)
        | .error re =>
          (⟨2, 1⟩,
            .error ("Failed to inject content script or retry message failed: ".data ++ re))

/-- A DOM element as the snapshot sees it: its tag name (uppercase, as
`tagName` reports) and its serialized markup. -/
structure DomEl : Type where
  tag : String
  outer : String

/-- The page state `getPageContext` reads, with a flag for an internal DOM
query failure (the `catch` path of part_000 lines 213-222). -/
structure PageDom : Type where
  title : String
  url : String
  els : List DomEl
  queryThrows : Bool

/-- Split at the first occurrence of `pat`, keeping what stands before it. -/
def splitKeepFirstSeq (pat : List Char) : List Char → Option (List Char × List Char)
  | [] =>
    match dropSeq pat [] with
    | some r => some ([], r)
    | none => none
  | c :: cs =>
    match dropSeq pat (c :: cs) with
    | some r => some ([], r)
    | none =>
      match splitKeepFirstSeq pat cs with
      | some p => some (c :: p.1, p.2)
      | none => none

/-- One pass list of `removeSvgFromHtml`'s global regex
(`<svg[^>]*>[\s\S]*?<\/svg>`): find `<svg`, the first `>` after it, then the
first `</svg>` after that; drop the span and continue after it. -/
def removeSvgAux : Nat → List Char → List Char
  | 0, s => s
  | fuel + 1, s =>
    match splitKeepFirstSeq ('<' :: 's' :: 'v' :: 'g' :: []) s with
    | none => s
    | some (before, afterOpen) =>
      match splitKeepFirstSeq ['>'] afterOpen with
      | none => s
      | some (_, afterGt) =>
        match splitKeepFirstSeq ('<' :: '/' :: 's' :: 'v' :: 'g' :: '>' :: []) afterGt with
        | none => s
        | some (_, afterClose) => before ++ removeSvgAux fuel afterClose

/-- `removeSvgFromHtml` (part_000 lines 185-189). -/
def removeSvgFromHtml (s : List Char) : List Char := removeSvgAux s.length s

/-- The tags the snapshot selects (part_000 line 174). -/
def CONTEXT_ELEMENT_TAGS : List String := ["A", "BUTTON"]

/-- Model of `getPageContext` (part_000 lines 195-223): select the anchor and
button elements, strip vector markup from their serialized forms, join with
newlines and trim; an empty result or an internal query failure gives a
null snippet, and the title and url are reported either way. -/
def getPageContext (now : Nat) (p : PageDom) : PageCtx :=
  if p.queryThrows then ⟨p.title, p.url, none, now⟩
  else
    let targetElements := p.els.filter (fun e => CONTEXT_ELEMENT_TAGS.contains e.tag)
    let textSnippet :=
      trimStr (joinSep "\n"
        (targetElements.map (fun e => String.mk (removeSvgFromHtml e.outer.data))))
    ⟨p.title, p.url, if textSnippet = "" then none else some textSnippet, now⟩

/-- JavaScript truthiness of an optional string field. -/
def truthyOptStr : Option String → Bool
  | some s => s ≠ ""
  | none => false

/-- `x || ''` on an optional string field. -/
def orEmptyStr : Option String → String
  | some s => s
  | none => ""

/-- Is the value an array, as `Array.isArray`. -/
def isArrJ : JVal → Bool
  | .arr _ => true
  | _ => false

/-- A step as the Gemini result supplies it to the Renderer. -/
structure InStep : Type where
  xpath : Option String
  element : Option String
  selector : Option String
  popover : Option JVal
  title : Option String
  description : Option String
  waitForInput : Bool
  nextActions : Option JVal

/-- The element value of a normalized step: a lazy XPath lookup function, a
selector string, or `null`. -/
inductive ElemTarget : Type where
  | xpathFn : String → ElemTarget
  | selector : String → ElemTarget
  | nullTarget : ElemTarget
  deriving DecidableEq

/-- The default popover built from `title`/`description` with `|| ''`. -/
def popoverDefault (s : InStep) : JVal :=
  .obj [("title".data, .str (orEmptyStr s.title).data),
    ("description".data, .str (orEmptyStr s.description).data)]

/-- A step in the shape handed to the highlighting library, with the two
optional behavior hooks recorded as flags. -/
structure NormStep : Type where
  element : ElemTarget
  popover : JVal
  hasHighlightStartedHook : Bool
  hasNextClickHook : Bool
  deriving DecidableEq

/-- Normalization of one step (part_000 lines 235-287):
`s.xpath ? () => getElementByXPath(s.xpath) : s.element || s.selector || null`
for the element, the given popover or a default from title/description,
an `onHighlightStarted` hook when `waitForInput` is truthy, and an
`onNextClick` hook when `nextActions` is a truthy array. -/
def normalizeStep (s : InStep) : NormStep :=
  { element :=
      if truthyOptStr s.xpath then .xpathFn (orEmptyStr s.xpath)
      else if truthyOptStr s.element then .selector (orEmptyStr s.element)
      else if truthyOptStr s.selector then .selector (orEmptyStr s.selector)
      else .nullTarget
    popover :=
      match s.popover with
      | some p => if jsTruthy p then p else popoverDefault s
      | none => popoverDefault s
    hasHighlightStartedHook := s.waitForInput
    hasNextClickHook :=
      match s.nextActions with
      | some v => jsTruthy v && isArrJ v
      | none => false }

/-- `normalizeDriverSteps` (part_000 lines 234-288). -/
def normalizeDriverSteps (steps : List InStep) : List NormStep :=
  steps.map normalizeStep

/-- The highlighting library's availability in the page:
`typeof window.driver.js.driver === 'function'`, and whether the returned
object has a `drive` function. -/
structure DriverEnv : Type where
  driverAvailable : Bool
  driveAvailable : Bool

/-- Observable effects of `runDriverjs`: each call of the library's factory
with its step list, and the number of `drive()` calls. -/
structure RenderTrace : Type where
  factoryCalls : List (List NormStep)
  driveCalls : Nat
  deriving DecidableEq

/-- Model of `runDriverjs` (part_000 lines 304-338): normalize, return
silently on an empty list, call the factory once with the normalized steps
when the library is available, and `drive()` when the object supports it;
an unavailable library logs and returns without a call. -/
def runDriverjs (env : DriverEnv) (steps : List InStep) : RenderTrace :=
  let normalizedSteps := normalizeDriverSteps steps
  if normalizedSteps.length = 0 then ⟨[], 0⟩
  else if env.driverAvailable then
    if env.driveAvailable then ⟨[normalizedSteps], 1⟩ else ⟨[normalizedSteps], 0⟩
  else ⟨[], 0⟩

theorem geminiGo_attempts_le (normalize : List Char → Except JsErr JVal) :
    ∀ (outcomes : List Outcome) (attempt : Nat), attempt ≤ 3 →
      (geminiGo normalize attempt outcomes).attempts + attempt ≤ 4 := by
  intro outcomes
  induction outcomes with
  | nil =>
    intro attempt h
    simp only [geminiGo]
    omega
  | cons o rest ih =>
    intro attempt h
    cases o with
    | httpError st body =>
      simp only [geminiGo]
      split_ifs with h1 h2
      · have := ih (attempt + 1) (by omega)
        simp only [retryCons]
        omega
      · have := ih (attempt + 1) (by omega)
        simp only [retryCons]
        omega
      · simp only []
        omega
    | netFail =>
      simp only [geminiGo]
      split_ifs with h1
      · have := ih (attempt + 1) (by omega)
        simp only [retryCons]
        omega
      · simp only []
        omega
    | success gen =>
      simp only [geminiGo]
      split
      · simp only []
        omega
      · split_ifs with h1
        · have := ih (attempt + 1) (by omega)
          simp only [retryCons]
          omega
        · simp only []
          omega

theorem geminiGo_delays (normalize : List Char → Except JsErr JVal) :
    ∀ (outcomes : List Outcome) (attempt : Nat), attempt ≤ 3 →
      ∃ k, (geminiGo normalize attempt outcomes).delays
          = (List.range k).map (fun i => backoffDelay (attempt + i)) ∧ attempt + k ≤ 3 := by
  intro outcomes
  induction outcomes with
  | nil =>
    intro attempt h
    exact ⟨0, by simp [geminiGo], by omega⟩
  | cons o rest ih =>
    intro attempt h
    have hretry : ∀ hlt : attempt < 3,
        ∃ k, (retryCons attempt (geminiGo normalize (attempt + 1) rest)).delays
            = (List.range k).map (fun i => backoffDelay (attempt + i)) ∧ attempt + k ≤ 3 := by
      intro hlt
      obtain ⟨k, hk, hb⟩ := ih (attempt + 1) (by omega)
      refine ⟨k + 1, ?_, by omega⟩
      simp only [retryCons, hk]
      rw [List.range_succ_eq_map, List.map_cons, List.map_map]
      have h0 : backoffDelay (attempt + 0) = backoffDelay attempt := by simp
      have htail :
          List.map ((fun i => backoffDelay (attempt + i)) ∘ Nat.succ) (List.range k)
            = List.map (fun i => backoffDelay (attempt + 1 + i)) (List.range k) := by
        apply List.map_congr_left
        intro a _
        simp only [Function.comp]
        congr 1
        omega
      rw [h0, htail]
    cases o with
    | httpError st body =>
      simp only [geminiGo]
      split_ifs with h1 h2
      · exact hretry h1.2
      · exact hretry h2
      · exact ⟨0, by simp, by omega⟩
    | netFail =>
      simp only [geminiGo]
      split_ifs with h1
      · exact hretry h1
      · exact ⟨0, by simp, by omega⟩
    | success gen =>
      simp only [geminiGo]
      split
      · exact ⟨0, by simp, by omega⟩
      · split_ifs with h1
        · exact hretry h1
        · exact ⟨0, by simp, by omega⟩

/-- C1: the claim says a 4xx response fails the call immediately with no
retry and no backoff sleep.  The code evaluated at a 4xx outcome: the
attempt is retried after a 500ms sleep (and succeeds on the next outcome),
and three 4xx responses in a row make three attempts with two sleeps before
the error carrying the response body is raised — the `throw` for 4xx stands
inside the `try`, so the function's own `catch` retries it, against the
adjacent comment "fail immediately for 4xx client errors". -/
theorem c1_fourxx_is_retried :
    callGeminiV1 [Outcome.httpError 400 ("Bad Request".data),
        Outcome.success ('[' :: ']' :: [])]
      = ⟨2, [500], Except.ok (JVal.arr [])⟩
    ∧ callGeminiV1 [Outcome.httpError 400 ("Bad Request".data),
        Outcome.httpError 400 ("Bad Request".data),
        Outcome.httpError 400 ("Bad Request".data)]
      = ⟨3, [500, 1000], Except.error (JsErr.apiError 400 ("Bad Request".data))⟩ := by
  decide

/-- C2: at most 3 attempts for every simulated outcome sequence; the slept
delays are always a front part of 500ms, 1000ms; a status of 500 or more, or
a network failure, on an attempt below the cap is followed by one retry
with delay `500 * 2 ^ (attempt - 1)`; and the sequence 500, 500, then ok
makes exactly 3 attempts (2 retries) with delays 500ms and 1000ms before
succeeding. -/
theorem c2_retry_policy :
    (∀ normalize outcomes, (geminiGo normalize 1 outcomes).attempts ≤ 3)
    ∧ (∀ normalize outcomes, ∃ k, k ≤ 2
        ∧ (geminiGo normalize 1 outcomes).delays = List.take k [500, 1000])
    ∧ (∀ normalize attempt st body rest, 500 ≤ st → attempt < 3 →
        geminiGo normalize attempt (Outcome.httpError st body :: rest)
          = retryCons attempt (geminiGo normalize (attempt + 1) rest))
    ∧ (∀ normalize attempt rest, attempt < 3 →
        geminiGo normalize attempt (Outcome.netFail :: rest)
          = retryCons attempt (geminiGo normalize (attempt + 1) rest))
    ∧ (∀ attempt, backoffDelay attempt = 500 * 2 ^ (attempt - 1))
    ∧ callGeminiV1 [Outcome.httpError 500 ("err".data), Outcome.httpError 500 ("err".data),
        Outcome.success ('[' :: ']' :: [])]
      = ⟨3, [500, 1000], Except.ok (JVal.arr [])⟩ := by
  refine ⟨?_, ?_, ?_, ?_, fun _ => rfl, by decide⟩
  · intro normalize outcomes
    have := geminiGo_attempts_le normalize outcomes 1 (by omega)
    omega
  · intro normalize outcomes
    obtain ⟨k, hk, hb⟩ := geminiGo_delays normalize outcomes 1 (by omega)
    refine ⟨k, by omega, ?_⟩
    rw [hk]
    have hk2 : k ≤ 2 := by omega
    interval_cases k <;> decide
  · intro normalize attempt st body rest hst hlt
    simp only [geminiGo]
    rw [if_pos ⟨hst, hlt⟩]
  · intro normalize attempt rest hlt
    simp only [geminiGo]
    rw [if_pos hlt]

/-- Witness for C2 at concrete inputs. -/
theorem c2_retry_policy_witness :
    geminiGo normalizeV1 1 [Outcome.httpError 500 [], Outcome.success ('[' :: ']' :: [])]
        = retryCons 1 (geminiGo normalizeV1 2 [Outcome.success ('[' :: ']' :: [])])
    ∧ geminiGo normalizeV1 2 [Outcome.netFail] = retryCons 2 (geminiGo normalizeV1 3 []) :=
  ⟨c2_retry_policy.2.2.1 normalizeV1 1 500 [] _ (by decide) (by decide),
    c2_retry_policy.2.2.2.1 normalizeV1 2 [] (by decide)⟩

/-- C3 counterexample: the text `hello` has no fenced JSON block and is not
itself JSON, yet gemini.js's normalization of the model output returns a
successful empty steps array — no `UnparsableModelOutput` (or any) error is
produced, refuting the claim as stated. -/
theorem c3_counterexample :
    fencedGroup ("hello".data) = none ∧ jsonParse ("hello".data) = none
      ∧ normalizeV1 ("hello".data) = Except.ok (JVal.arr []) := by
  decide

/-- C3 as amended: on generated text with no parsable fenced block and no
raw JSON parse, `parseJson` yields null, and neither revision fails with an
`UnparsableModelOutput` error: the gemini.js normalization returns a
successful empty array, and the part_005 normalization throws a TypeError
from reading property 0 of null (later retried and re-raised by the loop's
catch). -/
theorem c3_amended_no_unparsable_error (s : List Char)
    (hraw : jsonParse s = none)
    (hfen : ∀ g, fencedGroup s = some g → jsonParse g = none) :
    normalizeV1 s = Except.ok (JVal.arr [])
      ∧ ∀ tour, normalizeV2 tour s
          = Except.error (JsErr.typeError ("Cannot read properties of null".data)) := by
  have hnull := parseJson_malformed s hraw hfen
  constructor
  · unfold normalizeV1
    rw [hnull]
  · intro tour
    unfold normalizeV2
    rw [hnull]
    simp [normalizeResultV2, jsTruthy]

/-- Witness for C3's amended theorem at the text `hello`. -/
theorem c3_amended_witness :
    normalizeV1 ("hello".data) = Except.ok (JVal.arr [])
      ∧ normalizeV2 none ("hello".data)
          = Except.error (JsErr.typeError ("Cannot read properties of null".data)) :=
  ⟨(c3_amended_no_unparsable_error ("hello".data) (by decide)
      (fun g h => by rw [show fencedGroup ("hello".data) = none from by decide] at h; cases h)).1,
    (c3_amended_no_unparsable_error ("hello".data) (by decide)
      (fun g h => by rw [show fencedGroup ("hello".data) = none from by decide] at h; cases h)).2
      none⟩

/-- C5: `parseJson` round-trips `JSON.stringify` on the modelled serializable
fragment, and answers the explicit no-parse signal (JavaScript null) on any
input string that neither holds a parsable fenced block nor parses as raw
JSON — without throwing, as the function is total. -/
theorem c5_parseJson_round_trip :
    (∀ v, SerialOk v → parseJson (.str (stringify v)) = v)
    ∧ (∀ s, jsonParse s = none → (∀ g, fencedGroup s = some g → jsonParse g = none) →
        parseJson (.str s) = JVal.null) :=
  ⟨parseJson_stringify, parseJson_malformed⟩

/-- Witness for C5 at a concrete nested value and a concrete malformed text. -/
theorem c5_round_trip_witness :
    parseJson (.str (stringify (JVal.arr
        [JVal.num (-5), JVal.str ('x' :: '\n' :: 'y' :: []), JVal.bool true, JVal.null,
          JVal.obj [("a".data, JVal.str "b\"c".data)]])))
      = JVal.arr [JVal.num (-5), JVal.str ('x' :: '\n' :: 'y' :: []), JVal.bool true, JVal.null,
          JVal.obj [("a".data, JVal.str "b\"c".data)]]
    ∧ parseJson (.str ("not json at all".data)) = JVal.null :=
  ⟨c5_parseJson_round_trip.1 _
      (SerialOk.arr _ (by
        intro x hx
        simp only [List.mem_cons, List.not_mem_nil, or_false] at hx
        rcases hx with rfl | rfl | rfl | rfl | rfl
        · exact SerialOk.num _
        · exact SerialOk.str _ (by decide)
        · exact SerialOk.bool _
        · exact SerialOk.null
        · exact SerialOk.obj _ (by decide) (by decide)
            (by intro kv hkv; simp only [List.mem_singleton] at hkv; subst hkv
                exact SerialOk.str _ (by decide)))),
    c5_parseJson_round_trip.2 _ (by decide)
      (fun g h => by
        rw [show fencedGroup ("not json at all".data) = none from by decide] at h
        cases h)⟩

/-- C10 counterexample: the text of an empty fenced block matches the fenced
pattern and its interior (the empty string) is not valid JSON, yet the raw
`JSON.parse(text)` fallback IS attempted — the capture group is empty, a
falsy string, so `match && match[1]` fails and control falls through —
refuting "without falling back".  The returned value is still null. -/
theorem c10_counterexample :
    fencedGroup ("```json\n\n```".data) = some []
    ∧ jsonParse ([] : List Char) = none
    ∧ (parseJsonT (.str ("```json\n\n```".data))).2 = true
    ∧ parseJson (.str ("```json\n\n```".data)) = JVal.null := by
  decide

/-- C10 as amended: for every input string matching the fenced pattern with
a non-empty captured interior that is not valid JSON, `parseJson` returns
null at once and the raw-text parse is not attempted; and for every
non-string input it returns null (no parse attempted at all). -/
theorem c10_fenced_no_fallback (s g : List Char) (hg : fencedGroup s = some g)
    (hne : g ≠ []) (hbad : jsonParse g = none) :
    parseJsonT (.str s) = (JVal.null, false) ∧ parseJsonT .nonString = (JVal.null, false) := by
  refine ⟨?_, rfl⟩
  unfold parseJsonT
  simp only []
  rw [hg]
  simp only []
  rw [if_pos hne, hbad]

/-- Witness for C10's amended theorem at a concrete fenced non-JSON text. -/
theorem c10_fenced_no_fallback_witness :
    parseJsonT (.str ("```json\nnot json\n```".data)) = (JVal.null, false) ∧
      parseJsonT .nonString = (JVal.null, false) :=
  c10_fenced_no_fallback ("```json\nnot json\n```".data) ("not json".data)
    (by decide) (by decide) (by decide)

theorem natKey_ne_type (i : Nat) : natKey i ≠ ("type".data) := by
  intro he
  have hmem : 't' ∈ natToDigits i := by
    rw [show natToDigits i = natKey i from rfl, he]
    decide
  exact absurd (natToDigits_digits i 't' hmem) (by decide)

theorem jsGetProp_arr_eq_none (xs : List JVal) (k : List Char) (hk : ∀ i, natKey i ≠ k) :
    jsGetProp (JVal.arr xs) k = none := by
  simp only [jsGetProp]
  rw [List.findSome?_eq_none_iff]
  intro i _
  simp [hk i]

/-- The truthiness gate of part_005 line 182: truthy value with truthy
`type` and `data` properties. -/
def hasTypeAndDataTruthy (r : JVal) : Bool :=
  jsTruthy r && jsTruthyProp r ("type".data) && jsTruthyProp r ("data".data)

/-- The step heuristic of part_005 line 190: `result[0] && result[0].popover`. -/
def firstElemPopover (r : JVal) : Bool :=
  jsTruthyProp r ("0".data)
    && (match jsGetProp r ("0".data) with
        | some x => jsTruthyProp x ("popover".data)
        | none => false)

/-- The key-overlap heuristic of part_005 lines 193-198: a truthy
`formInputs` on the contextual tour sharing at least one key with the
result. -/
def keysOverlap (t : Tour) (r : JVal) : Bool :=
  match t.formInputs with
  | some fi => jsTruthy fi && (jsKeys r).any (fun k => (jsKeys fi).contains k)
  | none => false

theorem gate_iff (r : JVal) :
    (jsTruthy r = false ∨ jsTruthyProp r ("type".data) = false
      ∨ jsTruthyProp r ("data".data) = false) ↔ hasTypeAndDataTruthy r = false := by
  constructor
  · rintro (h | h | h) <;> simp [hasTypeAndDataTruthy, h]
  · intro h
    by_contra hc
    push_neg at hc
    obtain ⟨h1, h2, h3⟩ := hc
    rw [Ne, Bool.not_eq_false] at h1 h2 h3
    rw [hasTypeAndDataTruthy, h1, h2, h3] at h
    exact absurd h (by decide)

/-- C4 counterexample: two parsed outputs refute the claim as stated.
First, a value with both a `type` and a `data` FIELD, the `data` being the
empty string (falsy): the claim says it is returned unchanged, but the code
gates on truthiness, falls through, and wraps it as `unknown`.  Second, an
object whose element at index 0 HAS a `popover` field whose value is 0
(falsy): the claim says it becomes a tour, but the code tests truthiness
and wraps it as `unknown`. -/
theorem c4_counterexample :
    ((jsGetProp (JVal.obj [("type".data, JVal.str "tour".data), ("data".data, JVal.str [])])
        ("type".data)).isSome = true
      ∧ (jsGetProp (JVal.obj [("type".data, JVal.str "tour".data), ("data".data, JVal.str [])])
        ("data".data)).isSome = true
      ∧ normalizeResultV2 none
          (JVal.obj [("type".data, JVal.str "tour".data), ("data".data, JVal.str [])])
        ≠ Except.ok (JVal.obj [("type".data, JVal.str "tour".data), ("data".data, JVal.str [])])
      ∧ normalizeResultV2 none
          (JVal.obj [("type".data, JVal.str "tour".data), ("data".data, JVal.str [])])
        = Except.ok (unknownWrap
            (JVal.obj [("type".data, JVal.str "tour".data), ("data".data, JVal.str [])])))
    ∧ ((match jsGetProp (JVal.obj [("0".data, JVal.obj [("popover".data, JVal.num 0)])])
          ("0".data) with
        | some x => (jsGetProp x ("popover".data)).isSome
        | none => false) = true
      ∧ normalizeResultV2 none (JVal.obj [("0".data, JVal.obj [("popover".data, JVal.num 0)])])
        = Except.ok (unknownWrap
            (JVal.obj [("0".data, JVal.obj [("popover".data, JVal.num 0)])]))) := by
  decide

/-- C4 as amended: the shape-inference of part_005, with the gates as the
code tests them (truthiness, not mere presence).  A value whose `type` and
`data` properties are both truthy is returned unchanged; a bare array is
wrapped as a tour; an object whose element at index 0 is truthy with a
truthy `popover` is wrapped as a tour; otherwise an object sharing a key
with the contextual tour's truthy `formInputs` is wrapped as
`fill_input_form` with that tour's name; any other object, and any scalar,
is wrapped as `unknown`; and a JavaScript null (the no-parse signal)
crashes with a TypeError from reading property 0 of null. -/
theorem c4_shape_inference :
    (∀ tour r, hasTypeAndDataTruthy r = true → normalizeResultV2 tour r = Except.ok r)
    ∧ (∀ tour xs, hasTypeAndDataTruthy (JVal.arr xs) = false
        ∧ normalizeResultV2 tour (JVal.arr xs) = Except.ok (tourWrap (JVal.arr xs)))
    ∧ (∀ tour kvs, hasTypeAndDataTruthy (JVal.obj kvs) = false →
        firstElemPopover (JVal.obj kvs) = true →
        normalizeResultV2 tour (JVal.obj kvs) = Except.ok (tourWrap (JVal.obj kvs)))
    ∧ (∀ t kvs, hasTypeAndDataTruthy (JVal.obj kvs) = false →
        firstElemPopover (JVal.obj kvs) = false →
        keysOverlap t (JVal.obj kvs) = true →
        normalizeResultV2 (some t) (JVal.obj kvs)
          = Except.ok (fillWrap t.tourName (JVal.obj kvs)))
    ∧ (∀ t kvs, hasTypeAndDataTruthy (JVal.obj kvs) = false →
        firstElemPopover (JVal.obj kvs) = false →
        (∀ t', t = some t' → keysOverlap t' (JVal.obj kvs) = false) →
        normalizeResultV2 t (JVal.obj kvs) = Except.ok (unknownWrap (JVal.obj kvs)))
    ∧ (∀ tour b, normalizeResultV2 tour (JVal.bool b) = Except.ok (unknownWrap (JVal.bool b)))
    ∧ (∀ tour n, normalizeResultV2 tour (JVal.num n) = Except.ok (unknownWrap (JVal.num n)))
    ∧ (∀ tour s, normalizeResultV2 tour (JVal.str s) = Except.ok (unknownWrap (JVal.str s)))
    ∧ (∀ tour, normalizeResultV2 tour JVal.null
        = Except.error (JsErr.typeError ("Cannot read properties of null".data))) := by
  refine ⟨?_, ?_, ?_, ?_, ?_, ?_, ?_, ?_, ?_⟩
  · intro tour r h
    unfold normalizeResultV2
    rw [if_neg (by rw [gate_iff r, h]; simp)]
  · intro tour xs
    have harr : jsTruthyProp (JVal.arr xs) ("type".data) = false := by
      rw [jsTruthyProp, jsGetProp_arr_eq_none xs _ natKey_ne_type]
    constructor
    · simp [hasTypeAndDataTruthy, harr]
    · unfold normalizeResultV2
      rw [if_pos (Or.inr (Or.inl harr))]
  · intro tour kvs hgate hpop
    unfold normalizeResultV2
    rw [if_pos ((gate_iff _).mpr hgate)]
    simp only []
    rw [firstElemPopover, Bool.and_eq_true] at hpop
    rw [if_pos hpop]
  · intro t kvs hgate hpop hov
    unfold normalizeResultV2
    rw [if_pos ((gate_iff _).mpr hgate)]
    simp only []
    rw [if_neg (by
      rintro ⟨ha, hb⟩
      rw [firstElemPopover, ha, hb] at hpop
      exact absurd hpop (by decide))]
    cases hfi : t.formInputs with
    | none =>
      simp only [keysOverlap, hfi] at hov
      cases hov
    | some fi =>
      simp only [keysOverlap, hfi, Bool.and_eq_true] at hov
      simp only [hfi]
      rw [if_pos hov.1, if_pos hov.2]
  · intro t kvs hgate hpop hov
    unfold normalizeResultV2
    rw [if_pos ((gate_iff _).mpr hgate)]
    simp only []
    rw [if_neg (by
      rintro ⟨ha, hb⟩
      rw [firstElemPopover, ha, hb] at hpop
      exact absurd hpop (by decide))]
    cases t with
    | none => rfl
    | some t' =>
      have hko := hov t' rfl
      cases hfi : t'.formInputs with
      | none => simp only [hfi]
      | some fi =>
        simp only [keysOverlap, hfi] at hko
        simp only [hfi]
        cases htr : jsTruthy fi with
        | false => simp
        | true =>
          rw [htr] at hko
          simp only [Bool.true_and] at hko
          rw [if_pos rfl, if_neg (by rw [hko]; exact Bool.false_ne_true)]
  · intro tour b
    unfold normalizeResultV2
    rw [if_pos (Or.inr (Or.inl
      (show jsTruthyProp (JVal.bool b) ("type".data) = false from rfl)))]
  · intro tour n
    unfold normalizeResultV2
    rw [if_pos (Or.inr (Or.inl
      (show jsTruthyProp (JVal.num n) ("type".data) = false from rfl)))]
  · intro tour s
    unfold normalizeResultV2
    rw [if_pos (Or.inr (Or.inl
      (show jsTruthyProp (JVal.str s) ("type".data) = false from rfl)))]
  · intro tour
    unfold normalizeResultV2
    rw [if_pos (Or.inl (show jsTruthy JVal.null = false from rfl))]

/-- Witness for C4 at concrete parsed outputs, one per main branch. -/
theorem c4_shape_inference_witness :
    normalizeResultV2 none
        (JVal.obj [("type".data, JVal.str "tour".data), ("data".data, JVal.arr [])])
      = Except.ok (JVal.obj [("type".data, JVal.str "tour".data), ("data".data, JVal.arr [])])
    ∧ normalizeResultV2 none (JVal.arr [JVal.num 1])
      = Except.ok (tourWrap (JVal.arr [JVal.num 1]))
    ∧ normalizeResultV2 none
        (JVal.obj [("0".data, JVal.obj [("popover".data, JVal.str "p".data)])])
      = Except.ok (tourWrap (JVal.obj [("0".data, JVal.obj [("popover".data, JVal.str "p".data)])]))
    ∧ normalizeResultV2 (some ⟨"T", "D", some (JVal.obj [("origin".data, JVal.str "x".data)])⟩)
        (JVal.obj [("origin".data, JVal.str "London".data)])
      = Except.ok (fillWrap "T" (JVal.obj [("origin".data, JVal.str "London".data)])) :=
  ⟨c4_shape_inference.1 none _ (by decide),
    (c4_shape_inference.2.1 none [JVal.num 1]).2,
    c4_shape_inference.2.2.1 none _ (by decide) (by decide),
    c4_shape_inference.2.2.2.1 ⟨"T", "D", some (JVal.obj [("origin".data, JVal.str "x".data)])⟩
      _ (by decide) (by decide) (by decide)⟩

set_option maxRecDepth 4000 in
/-- C6: part_005's `callGemini` overwrites the received page snapshot with
the empty string before building the outbound text, so for EVERY pair of
snapshots (including rich ones versus none at all) the outbound text is
identical — the title, url and truncated snippet never reach it.  The
second conjunct shows the serialization the claim describes is exactly
what `buildContextPrompt` would produce for a non-empty snapshot — the
dead code path — and the third that the context block actually embedded
in the outbound text is the one built from the overwritten empty string,
which is empty. -/
theorem c6_page_context_discarded :
    (∀ p c₁ c₂ t, combinedTextV2 p c₁ t = combinedTextV2 p c₂ t)
    ∧ buildContextPrompt (.ctx ⟨"T", "u", some "S", 0⟩)
        = "---PAGE CONTEXT---\nTitle: T\n\nURL: u\n\nPage text snippet:\nS"
    ∧ buildContextPrompt .emptyString = "" :=
  ⟨fun _ _ _ _ => rfl, by decide, rfl⟩

/-- C7: the Coordinator's tab send: a successful first send is returned with
no injection; a first-send failure that does not indicate a missing
receiver is surfaced at once with no injection; a missing-receiver failure
triggers exactly one injection followed by exactly one retry send, whose
failure (or the injection's own failure, in which case no retry happens) is
surfaced as a terminal wrapped error; never more than 2 sends or 1
injection. -/
theorem c7_injection_retry_policy {α : Type} (env : SendEnv α) :
    (∀ r, env.firstSend = .ok r → sendMessageWithInjectionRetry env = (⟨1, 0⟩, .ok r))
    ∧ (∀ e, env.firstSend = .error e → isMissingReceiverError e = false →
        sendMessageWithInjectionRetry env
          = (⟨1, 0⟩, .error ("SendMessage failed: ".data ++ e)))
    ∧ (∀ e r, env.firstSend = .error e → isMissingReceiverError e = true →
        env.injection = .ok () → env.retrySend = .ok r →
        sendMessageWithInjectionRetry env = (⟨2, 1⟩, .ok r))
    ∧ (∀ e re, env.firstSend = .error e → isMissingReceiverError e = true →
        env.injection = .ok () → env.retrySend = .error re →
        sendMessageWithInjectionRetry env
          = (⟨2, 1⟩, .error ("Failed to inject content script or retry message failed: ".data
              ++ re)))
    ∧ (∀ e ie, env.firstSend = .error e → isMissingReceiverError e = true →
        env.injection = .error ie →
        sendMessageWithInjectionRetry env
          = (⟨1, 1⟩, .error ("Failed to inject content script or retry message failed: ".data
              ++ ie)))
    ∧ (sendMessageWithInjectionRetry env).1.sends ≤ 2
    ∧ (sendMessageWithInjectionRetry env).1.injections ≤ 1 := by
  refine ⟨?_, ?_, ?_, ?_, ?_, ?_, ?_⟩
  · intro r h
    unfold sendMessageWithInjectionRetry
    rw [h]
  · intro e h hm
    unfold sendMessageWithInjectionRetry
    rw [h]
    simp only []
    rw [if_pos hm]
  · intro e r h hm hinj hretry
    unfold sendMessageWithInjectionRetry
    rw [h]
    simp only []
    rw [if_neg (by rw [hm]; decide), hinj]
    simp only []
    rw [hretry]
  · intro e re h hm hinj hretry
    unfold sendMessageWithInjectionRetry
    rw [h]
    simp only []
    rw [if_neg (by rw [hm]; decide), hinj]
    simp only []
    rw [hretry]
  · intro e ie h hm hinj
    unfold sendMessageWithInjectionRetry
    rw [h]
    simp only []
    rw [if_neg (by rw [hm]; decide), hinj]
  · unfold sendMessageWithInjectionRetry
    cases env.firstSend with
    | ok r => simp
    | error e =>
      simp only []
      split_ifs with hm
      · simp
      · cases env.injection with
        | error ie => simp
        | ok u =>
          cases env.retrySend with
          | ok r => simp
          | error re => simp
  · unfold sendMessageWithInjectionRetry
    cases env.firstSend with
    | ok r => simp
    | error e =>
      simp only []
      split_ifs with hm
      · simp
      · cases env.injection with
        | error ie => simp
        | ok u =>
          cases env.retrySend with
          | ok r => simp
          | error re => simp

/-- Witness for C7: a concrete missing-receiver environment whose retry also
fails, a concrete environment with an unrelated failure, and a concrete
environment whose injection fails. -/
theorem c7_injection_retry_witness :
    sendMessageWithInjectionRetry (α := Nat)
        ⟨.error ("Error: Receiving end does not exist.".data), .ok (), .error ("gone".data)⟩
      = (⟨2, 1⟩, .error ("Failed to inject content script or retry message failed: ".data
          ++ "gone".data))
    ∧ sendMessageWithInjectionRetry (α := Nat)
        ⟨.error ("permission denied".data), .ok (), .ok 7⟩
      = (⟨1, 0⟩, .error ("SendMessage failed: ".data ++ "permission denied".data))
    ∧ sendMessageWithInjectionRetry (α := Nat)
        ⟨.error ("Could not establish connection".data), .error ("blocked".data), .ok 7⟩
      = (⟨1, 1⟩, .error ("Failed to inject content script or retry message failed: ".data
          ++ "blocked".data)) :=
  ⟨(c7_injection_retry_policy
      ⟨.error ("Error: Receiving end does not exist.".data), .ok (), .error ("gone".data)⟩).2.2.2.1
      _ _ rfl (by decide) rfl rfl,
    (c7_injection_retry_policy
      ⟨.error ("permission denied".data), .ok (), .ok 7⟩).2.1 _ rfl (by decide),
    (c7_injection_retry_policy
      ⟨.error ("Could not establish connection".data), .error ("blocked".data), .ok 7⟩).2.2.2.2.1
      _ _ rfl (by decide) rfl⟩

/-- C8: the snapshot is total over every modelled page state: it always
returns a PageContext carrying the page's title and url, and the snippet is
null both when the internal DOM query throws and when the page has no
anchor or button elements. -/
theorem c8_snapshot_total (now : Nat) (p : PageDom) :
    (getPageContext now p).title = p.title
    ∧ (getPageContext now p).url = p.url
    ∧ (getPageContext now p).timestamp = now
    ∧ (p.queryThrows = true → (getPageContext now p).textSnippet = none)
    ∧ (p.els.filter (fun e => CONTEXT_ELEMENT_TAGS.contains e.tag) = [] →
        (getPageContext now p).textSnippet = none) := by
  unfold getPageContext
  by_cases hq : p.queryThrows = true
  · rw [if_pos hq]
    exact ⟨rfl, rfl, rfl, fun _ => rfl, fun _ => rfl⟩
  · rw [if_neg hq]
    refine ⟨rfl, rfl, rfl, fun hcontra => absurd hcontra hq, fun hfil => ?_⟩
    rw [hfil]
    rfl

/-- Witness for C8: a page whose query throws, and a page with only a DIV. -/
theorem c8_snapshot_total_witness :
    (getPageContext 5 ⟨"t", "u", [⟨"A", "<a>x</a>"⟩], true⟩).textSnippet = none
    ∧ (getPageContext 5 ⟨"t", "u", [⟨"DIV", "<div>x</div>"⟩], false⟩).textSnippet = none :=
  ⟨(c8_snapshot_total 5 ⟨"t", "u", [⟨"A", "<a>x</a>"⟩], true⟩).2.2.2.1 rfl,
    (c8_snapshot_total 5 ⟨"t", "u", [⟨"DIV", "<div>x</div>"⟩], false⟩).2.2.2.2 rfl⟩

/-- C9: for a non-empty step sequence with the highlighting library
available, the library's factory is invoked exactly once, with the
normalization of the input steps element by element (same length, same
order); and a step with no xpath, element or selector normalizes to a null
element without any failure. -/
theorem c9_render_once (env : DriverEnv) (steps : List InStep) :
    (steps ≠ [] → env.driverAvailable = true →
      (runDriverjs env steps).factoryCalls = [steps.map normalizeStep]
        ∧ (normalizeDriverSteps steps).length = steps.length)
    ∧ (∀ s : InStep, truthyOptStr s.xpath = false → truthyOptStr s.element = false →
        truthyOptStr s.selector = false → (normalizeStep s).element = ElemTarget.nullTarget) := by
  constructor
  · intro hne hav
    constructor
    · unfold runDriverjs
      rw [if_neg (by
        simp only [normalizeDriverSteps, List.length_map]
        exact fun h => hne (List.length_eq_zero.mp h))]
      rw [if_pos hav]
      split_ifs <;> rfl
    · simp [normalizeDriverSteps]
  · intro s h1 h2 h3
    unfold normalizeStep
    simp [h1, h2, h3]

/-- Witness for C9 at a one-step sequence with no target locator. -/
theorem c9_render_once_witness :
    (runDriverjs ⟨true, true⟩ [⟨none, none, none, none, some "T", none, false, none⟩]).factoryCalls
      = [[normalizeStep ⟨none, none, none, none, some "T", none, false, none⟩]]
    ∧ (normalizeStep ⟨none, none, none, none, some "T", none, false, none⟩).element
      = ElemTarget.nullTarget :=
  ⟨((c9_render_once ⟨true, true⟩ [⟨none, none, none, none, some "T", none, false, none⟩]).1
      (by simp) rfl).1,
    (c9_render_once ⟨true, true⟩ []).2 ⟨none, none, none, none, some "T", none, false, none⟩
      (by decide) (by decide) (by decide)⟩
